import Mathlib

/-!
Verification of the image-to-gcode geometric pipeline.

This file shallowly embeds the geometric core of the repository
(path optimization, Douglas-Peucker simplification, curve fitting and arc
conversion, hatching extraction, centerline stitching, variable line weight)
into Lean and proves or refutes the frozen specification claims.

JavaScript numbers are idealized as real numbers; integer raster data is
modelled with naturals and rationals where the source only performs exact
integer or decimal arithmetic.  Unbounded `while` loops of the source are
modelled with an explicit fuel parameter; every such spot is documented at
the definition.  Calls to `Math.random()` are modelled by threading an
explicit stream of draw values (a function from draw index to value), which
is the ambient state the source reads.
-/

noncomputable section

/-- A 2D point with real coordinates, as in the Point interfaces of the
source modules. -/
structure Pt where
  x : ℝ
  y : ℝ

instance : Inhabited Pt := ⟨⟨0, 0⟩⟩

/-- A path is an ordered list of points (Path = Point[] in the source). -/
abbrev PPath := List Pt

namespace PathOptimizer

/-- Euclidean distance between two points (PathOptimizer.distance). -/
def distance (p1 p2 : Pt) : ℝ :=
  Real.sqrt ((p2.x - p1.x) * (p2.x - p1.x) + (p2.y - p1.y) * (p2.y - p1.y))

/-- Pen-up travel contributed by a consecutive pair of paths: the source
adds distance(currentEnd, nextStart) only when both paths are non-empty. -/
def penUp (a b : PPath) : ℝ :=
  match a.getLast?, b.head? with
  | some pa, some pb => distance pa pb
  | _, _ => 0

/-- PathOptimizer.calculateTotalTravelDistance: sum of end-to-start
distances over consecutive pairs of paths. -/
def calculateTotalTravelDistance : List PPath → ℝ
  | a :: b :: rest => penUp a b + calculateTotalTravelDistance (b :: rest)
  | _ => 0

/-- PathOptimizer.tryMergePaths: try the four endpoint pairings, pick the
closest (reduce keeps the first strict minimum), and merge when the best
distance is within the threshold. -/
def tryMergePaths (path1 path2 : PPath) (threshold : ℝ) : Option PPath :=
  match path1.head?, path1.getLast?, path2.head?, path2.getLast? with
  | some p1Start, some p1End, some p2Start, some p2End =>
    let connections : List (ℝ × PPath) :=
      [(distance p1End p2Start, path1 ++ path2),
       (distance p1End p2End, path1 ++ path2.reverse),
       (distance p1Start p2Start, path1.reverse ++ path2),
       (distance p1Start p2End, path1.reverse ++ path2.reverse)]
    let best := connections.foldl (fun m c => if c.1 < m.1 then c else m)
      (distance p1End p2Start, path1 ++ path2)
    if best.1 ≤ threshold then some best.2 else none
  | _, _, _, _ => none

/-- One scan of the inner merge loop of PathOptimizer.mergePaths: the first
unused index j whose path merges with the current path. -/
def findMergeCandidate (paths : List PPath) (used : Finset ℕ) (current : PPath)
    (threshold : ℝ) : Option (ℕ × PPath) :=
  paths.enum.findSome? fun jk =>
    if jk.1 ∈ used then none
    else (tryMergePaths current jk.2 threshold).map fun m => (jk.1, m)

/-- The `while (foundMerge)` loop of PathOptimizer.mergePaths, with fuel.
Each iteration except the last marks one more index used, so the loop runs
at most paths.length + 1 times; callers pass that fuel. -/
def mergeLoop (paths : List PPath) (threshold : ℝ) :
    ℕ → PPath → Finset ℕ → PPath × Finset ℕ
  | 0, current, used => (current, used)
  | fuel + 1, current, used =>
    match findMergeCandidate paths used current threshold with
    | some (j, merged) => mergeLoop paths threshold fuel merged (insert j used)
    | none => (current, used)

/-- The outer `for i` loop of PathOptimizer.mergePaths over indexed paths. -/
def mergeOuter (paths : List PPath) (threshold : ℝ) :
    List (ℕ × PPath) → Finset ℕ → List PPath
  | [], _ => []
  | (i, p) :: rest, used =>
    if i ∈ used then mergeOuter paths threshold rest used
    else
      if (mergeLoop paths threshold (paths.length + 1) p (insert i used)).1.length > 0 then
        (mergeLoop paths threshold (paths.length + 1) p (insert i used)).1 ::
          mergeOuter paths threshold rest
            (mergeLoop paths threshold (paths.length + 1) p (insert i used)).2
      else mergeOuter paths threshold rest
        (mergeLoop paths threshold (paths.length + 1) p (insert i used)).2

/-- PathOptimizer.mergePaths. -/
def mergePaths (paths : List PPath) (threshold : ℝ) : List PPath :=
  if paths.length ≤ 1 then paths
  else mergeOuter paths threshold paths.enum ∅

/-- PathOptimizer.swap2Opt: reverse the slice of positions i..j (the
source's two-pointer swap loop reverses that segment in place). -/
def swap2Opt (order : List ℕ) (i j : ℕ) : List ℕ :=
  order.take i ++ ((order.drop i).take (j - i + 1)).reverse ++ order.drop (j + 1)

/-- PathOptimizer.calculatePathOrderDistance: travel of the path sequence
visited in the given index order (missing indices give empty paths). -/
def calculatePathOrderDistance (paths : List PPath) : List ℕ → ℝ
  | i :: j :: rest =>
    penUp (paths.getD i []) (paths.getD j []) + calculatePathOrderDistance paths (j :: rest)
  | _ => 0

/-- The (i, j) pairs tried by one pass of apply2Opt, in loop order:
i from 1 while i < n-2, j from i+1 while j < n, skipping j = i+1. -/
def twoOptPairs (n : ℕ) : List (ℕ × ℕ) :=
  ((List.range (n - 2)).drop 1).flatMap fun i =>
    ((List.range n).drop (i + 2)).map fun j => (i, j)

/-- One candidate 2-opt swap: accept only a strict improvement. -/
def twoOptStep (paths : List PPath) (st : (List ℕ × ℝ) × Bool) (ij : ℕ × ℕ) :
    (List ℕ × ℝ) × Bool :=
  let newOrder := swap2Opt st.1.1 ij.1 ij.2
  let newDistance := calculatePathOrderDistance paths newOrder
  if newDistance < st.1.2 then ((newOrder, newDistance), true) else st

/-- One full pass of the nested i/j loops of apply2Opt. -/
def twoOptPass (paths : List PPath) (order : List ℕ) (best : ℝ) :
    (List ℕ × ℝ) × Bool :=
  (twoOptPairs order.length).foldl (twoOptStep paths) ((order, best), false)

/-- The `while (improved && iteration < maxIterations)` loop of apply2Opt;
the remaining iteration budget is the explicit first argument. -/
def twoOptGo (paths : List PPath) : ℕ → List ℕ → ℝ → List ℕ
  | 0, order, _ => order
  | fuel + 1, order, best =>
    let res := twoOptPass paths order best
    if res.2 then twoOptGo paths fuel res.1.1 res.1.2 else res.1.1

/-- PathOptimizer.apply2Opt: start from the identity order and its travel
distance, run the capped improvement loop, and reorder the paths. -/
def apply2Opt (paths : List PPath) (maxIterations : ℕ) : List PPath :=
  if paths.length < 4 then paths
  else
    (twoOptGo paths maxIterations (List.range paths.length)
      (calculatePathOrderDistance paths (List.range paths.length))).map
      fun idx => paths.getD idx []

/-- Pen-up edge from an optional preceding path into a path (the first
guarded addition of calculateTravelBetween). -/
def prevPen : Option PPath → PPath → ℝ
  | some pp, p => penUp pp p
  | none, _ => 0

/-- Pen-up edge from a path into an optional following path (the last
guarded addition of calculateTravelBetween). -/
def nextPen : PPath → Option PPath → ℝ
  | p, some np => penUp p np
  | _, none => 0

/-- PathOptimizer.calculateTravelBetween: local travel around a candidate
adjacent pair, including the edges to the surrounding paths when present. -/
def calculateTravelBetween (path1 path2 : PPath) (prevPath nextPath : Option PPath) : ℝ :=
  prevPen prevPath path1 + penUp path1 path2 + nextPen path2 nextPath

/-- The `for i` body sweep of PathOptimizer.greedyImprovement: walk the list
once, swapping an adjacent pair whenever the local travel strictly
decreases; returns the new list and whether any swap was kept. -/
def greedyStep (prevPath : Option PPath) : List PPath → List PPath × Bool
  | x :: y :: rest =>
    let originalDistance := calculateTravelBetween x y prevPath rest.head?
    let newDistance := calculateTravelBetween y x prevPath rest.head?
    if newDistance < originalDistance then
      let res := greedyStep (some y) (x :: rest)
      (y :: res.1, true)
    else
      let res := greedyStep (some x) (y :: rest)
      (x :: res.1, res.2)
  | l => (l, false)
termination_by l => l.length

/-- The `while (madeImprovement)` loop of greedyImprovement, with fuel.
The source loop terminates because each kept swap strictly decreases the
total travel distance, which ranges over the finite set of values attained
by permutations of the path list; the fuel models the iteration count and
every theorem below holds for all fuel values. -/
def greedyGo : ℕ → List PPath → List PPath
  | 0, paths => paths
  | fuel + 1, paths =>
    let res := greedyStep none paths
    if res.2 then greedyGo fuel res.1 else res.1

/-- PathOptimizer.greedyImprovement. -/
def greedyImprovement (paths : List PPath) (fuel : ℕ) : List PPath :=
  if paths.length ≤ 2 then paths else greedyGo fuel paths

/-- The options object taken by PathOptimizer.optimizePaths (defaults are
supplied by callers). -/
structure OptimizeOptions where
  enablePathMerging : Bool
  enable2Opt : Bool
  mergeThreshold : ℝ
  maxIterations : ℕ

/-- The result record of PathOptimizer.optimizePaths. -/
structure OptimizationResult where
  paths : List PPath
  totalDistance : ℝ
  improvement : ℝ

/-- PathOptimizer.optimizePaths: optional merging, optional 2-opt, then the
greedy adjacent-swap pass (greedyFuel models that pass's unbounded loop). -/
def optimizePaths (paths : List PPath) (options : OptimizeOptions) (greedyFuel : ℕ) :
    OptimizationResult :=
  if paths.length = 0 then ⟨[], 0, 0⟩
  else
    let originalDistance := calculateTotalTravelDistance paths
    let step1 := if options.enablePathMerging then mergePaths paths options.mergeThreshold
      else paths
    let step2 := if options.enable2Opt = true ∧ step1.length > 2 then
      apply2Opt step1 options.maxIterations else step1
    let optimizedPaths := greedyImprovement step2 greedyFuel
    let finalDistance := calculateTotalTravelDistance optimizedPaths
    let improvement := if originalDistance > 0 then
      (originalDistance - finalDistance) / originalDistance * 100 else 0
    ⟨optimizedPaths, finalDistance, improvement⟩

/-- Travel of a path list together with the pen-up edge from an optional
preceding path; the accounting device for the greedy-pass proofs. -/
def ctxTotal (prev : Option PPath) (l : List PPath) : ℝ :=
  (match l with
   | [] => 0
   | x :: _ => prevPen prev x) + calculateTotalTravelDistance l

theorem calcTotal_cons (x : PPath) (l : List PPath) :
    calculateTotalTravelDistance (x :: l) = ctxTotal (some x) l := by
  cases l with
  | nil => simp [calculateTotalTravelDistance, ctxTotal]
  | cons y r => simp [calculateTotalTravelDistance, ctxTotal, prevPen]

theorem ctxTotal_none (l : List PPath) :
    ctxTotal none l = calculateTotalTravelDistance l := by
  cases l <;> simp [ctxTotal, prevPen]

theorem ctxTotal_cons (prev : Option PPath) (x : PPath) (l : List PPath) :
    ctxTotal prev (x :: l) = prevPen prev x + ctxTotal (some x) l := by
  rw [ctxTotal, ← calcTotal_cons]

theorem ctxTotal_cons_cons (prev : Option PPath) (x y : PPath) (rest : List PPath) :
    ctxTotal prev (x :: y :: rest) =
      calculateTravelBetween x y prev rest.head? + calculateTotalTravelDistance rest := by
  rw [ctxTotal_cons, ctxTotal_cons, calculateTravelBetween]
  cases rest with
  | nil =>
    simp [ctxTotal, nextPen, prevPen, calculateTotalTravelDistance]
    try ring
  | cons z r =>
    simp [ctxTotal, nextPen, prevPen, calculateTotalTravelDistance]
    try ring

/-- Each greedy sweep never increases the (context-extended) travel. -/
theorem greedyStep_le (prevPath : Option PPath) :
    (l : List PPath) → ctxTotal prevPath (greedyStep prevPath l).1 ≤ ctxTotal prevPath l
  | [] => by simp [greedyStep]
  | [a] => by simp [greedyStep]
  | x :: y :: rest => by
    have hxy := greedyStep_le (some y) (x :: rest)
    have hyx := greedyStep_le (some x) (y :: rest)
    by_cases h : calculateTravelBetween y x prevPath rest.head? <
        calculateTravelBetween x y prevPath rest.head?
    · rw [greedyStep, if_pos h]
      calc ctxTotal prevPath (y :: (greedyStep (some y) (x :: rest)).1)
          = prevPen prevPath y +
              ctxTotal (some y) (greedyStep (some y) (x :: rest)).1 := ctxTotal_cons _ _ _
        _ ≤ prevPen prevPath y + ctxTotal (some y) (x :: rest) := by linarith [hxy]
        _ = ctxTotal prevPath (y :: x :: rest) := (ctxTotal_cons _ _ _).symm
        _ = calculateTravelBetween y x prevPath rest.head? +
              calculateTotalTravelDistance rest := ctxTotal_cons_cons _ _ _ _
        _ ≤ calculateTravelBetween x y prevPath rest.head? +
              calculateTotalTravelDistance rest := by linarith [le_of_lt h]
        _ = ctxTotal prevPath (x :: y :: rest) := (ctxTotal_cons_cons _ _ _ _).symm
    · rw [greedyStep, if_neg h]
      calc ctxTotal prevPath (x :: (greedyStep (some x) (y :: rest)).1)
          = prevPen prevPath x +
              ctxTotal (some x) (greedyStep (some x) (y :: rest)).1 := ctxTotal_cons _ _ _
        _ ≤ prevPen prevPath x + ctxTotal (some x) (y :: rest) := by linarith [hyx]
        _ = ctxTotal prevPath (x :: y :: rest) := (ctxTotal_cons _ _ _).symm
termination_by l => l.length

theorem greedyGo_le (fuel : ℕ) :
    ∀ paths, calculateTotalTravelDistance (greedyGo fuel paths) ≤
      calculateTotalTravelDistance paths := by
  induction fuel with
  | zero => intro paths; simp [greedyGo]
  | succ n ih =>
    intro paths
    have h := greedyStep_le none paths
    rw [ctxTotal_none, ctxTotal_none] at h
    rw [greedyGo]
    by_cases hb : (greedyStep none paths).2 = true
    · rw [if_pos hb]
      exact le_trans (ih _) h
    · rw [if_neg hb]
      exact h

theorem greedyImprovement_le (paths : List PPath) (fuel : ℕ) :
    calculateTotalTravelDistance (greedyImprovement paths fuel) ≤
      calculateTotalTravelDistance paths := by
  unfold greedyImprovement
  by_cases h : paths.length ≤ 2
  · rw [if_pos h]
  · rw [if_neg h]; exact greedyGo_le fuel paths

/-- Generic foldl invariant preservation. -/
theorem foldl_inv {α σ : Type _} (f : σ → α → σ) (P : σ → Prop)
    (h : ∀ s a, P s → P (f s a)) :
    ∀ (L : List α) (s : σ), P s → P (L.foldl f s)
  | [], _, hs => hs
  | a :: L, s, hs => foldl_inv f P h L (f s a) (h s a hs)

theorem twoOptPass_inv (paths : List PPath) (order : List ℕ) (best : ℝ)
    (hbest : best = calculatePathOrderDistance paths order) :
    (twoOptPass paths order best).1.2 =
      calculatePathOrderDistance paths (twoOptPass paths order best).1.1 ∧
    (twoOptPass paths order best).1.2 ≤ best := by
  have h := foldl_inv (twoOptStep paths)
    (fun st => st.1.2 = calculatePathOrderDistance paths st.1.1 ∧ st.1.2 ≤ best)
    (fun st ij hst => by
      unfold twoOptStep
      by_cases hc : calculatePathOrderDistance paths (swap2Opt st.1.1 ij.1 ij.2) < st.1.2
      · rw [if_pos hc]
        exact ⟨rfl, le_trans (le_of_lt hc) hst.2⟩
      · rw [if_neg hc]; exact hst)
    (twoOptPairs order.length) ((order, best), false) ⟨hbest, le_refl best⟩
  exact h

theorem twoOptGo_le (paths : List PPath) (fuel : ℕ) :
    ∀ order best, best = calculatePathOrderDistance paths order →
      calculatePathOrderDistance paths (twoOptGo paths fuel order best) ≤ best := by
  induction fuel with
  | zero => intro order best hb; rw [twoOptGo, hb]
  | succ n ih =>
    intro order best hb
    obtain ⟨h1, h2⟩ := twoOptPass_inv paths order best hb
    rw [twoOptGo]
    by_cases hi : (twoOptPass paths order best).2 = true
    · rw [if_pos hi]
      exact le_trans (ih _ _ h1) h2
    · rw [if_neg hi]
      rw [← h1] at *; exact h2

theorem orderDist_eq_total (paths : List PPath) :
    ∀ order : List ℕ, calculatePathOrderDistance paths order =
      calculateTotalTravelDistance (order.map fun idx => paths.getD idx [])
  | [] => rfl
  | [i] => rfl
  | i :: j :: rest => by
    rw [calculatePathOrderDistance, orderDist_eq_total paths (j :: rest)]
    simp [calculateTotalTravelDistance]

theorem range_map_getD (paths : List PPath) :
    ((List.range paths.length).map fun idx => paths.getD idx []) = paths := by
  apply List.ext_get
  · simp
  · intro n h1 h2
    simp [List.getD_eq_getElem?_getD, List.getElem?_eq_getElem h2]

theorem apply2Opt_le (paths : List PPath) (maxIterations : ℕ) :
    calculateTotalTravelDistance (apply2Opt paths maxIterations) ≤
      calculateTotalTravelDistance paths := by
  unfold apply2Opt
  by_cases h : paths.length < 4
  · rw [if_pos h]
  · rw [if_neg h]
    have hgo := twoOptGo_le paths maxIterations (List.range paths.length)
      (calculatePathOrderDistance paths (List.range paths.length)) rfl
    have h2 : calculatePathOrderDistance paths (List.range paths.length) =
        calculateTotalTravelDistance paths := by
      rw [orderDist_eq_total, range_map_getD]
    rw [orderDist_eq_total paths (twoOptGo paths maxIterations (List.range paths.length)
      (calculatePathOrderDistance paths (List.range paths.length)))] at hgo
    rw [h2] at hgo ⊢
    exact hgo

/-- C1: with path merging disabled, PathOptimizer.optimizePaths never
increases the total pen-travel distance: the 2-opt pass and the greedy
adjacent-swap pass accept only strictly improving changes. -/
theorem optimizePaths_travel_le (paths : List PPath) (options : OptimizeOptions)
    (greedyFuel : ℕ) (hmerge : options.enablePathMerging = false) :
    calculateTotalTravelDistance (optimizePaths paths options greedyFuel).paths ≤
      calculateTotalTravelDistance paths := by
  unfold optimizePaths
  by_cases h0 : paths.length = 0
  · rw [if_pos h0]
    cases paths with
    | nil => simp [calculateTotalTravelDistance]
    | cons a l => simp at h0
  · rw [if_neg h0]
    simp only [hmerge, Bool.false_eq_true, if_false]
    by_cases h2 : options.enable2Opt = true ∧ paths.length > 2
    · rw [if_pos h2]
      exact le_trans (greedyImprovement_le _ _) (apply2Opt_le _ _)
    · rw [if_neg h2]
      exact greedyImprovement_le _ _

/-- Witness for C1 at a concrete input with merging disabled. -/
theorem optimizePaths_travel_le_witness :
    calculateTotalTravelDistance
        (optimizePaths [[⟨0, 0⟩, ⟨1, 0⟩]] ⟨false, true, 5, 100⟩ 100).paths ≤
      calculateTotalTravelDistance [[⟨0, 0⟩, ⟨1, 0⟩]] :=
  optimizePaths_travel_le [[⟨0, 0⟩, ⟨1, 0⟩]] ⟨false, true, 5, 100⟩ 100 rfl

end PathOptimizer

namespace LineWeightSimulator

/-- The line weight styles of variable-line-weight.ts. -/
inductive LineWeightStyle where
  | parallel
  | outline
  | scribble
  | zigzag

/-- A WeightedPath record: centerline, weight and style. -/
structure WeightedPath where
  centerline : PPath
  weight : ℝ
  style : LineWeightStyle

/-- LineWeightSimulator.calculateNormal: unit perpendicular of the segment
from p1 to p2, with the degenerate fallback (0, 1). -/
def calculateNormal (p1 p2 : Pt) : Pt :=
  let dx := p2.x - p1.x
  let dy := p2.y - p1.y
  let length := Real.sqrt (dx * dx + dy * dy)
  if length = 0 then ⟨0, 1⟩ else ⟨-dy / length, dx / length⟩

/-- LineWeightSimulator.offsetPath: translate every vertex along its local
normal (edge normal at the ends, renormalized average inside). -/
def offsetPath (path : PPath) (dist : ℝ) : PPath :=
  if path.length < 2 then path
  else if |dist| < 0.1 then path
  else
    (List.range path.length).map fun i =>
      let current := path.getD i default
      let normal :=
        if i = 0 then calculateNormal current (path.getD 1 default)
        else if i = path.length - 1 then calculateNormal (path.getD (i - 1) default) current
        else
          let n1 := calculateNormal (path.getD (i - 1) default) current
          let n2 := calculateNormal current (path.getD (i + 1) default)
          let nx := (n1.x + n2.x) / 2
          let ny := (n1.y + n2.y) / 2
          let length := Real.sqrt (nx * nx + ny * ny)
          if length > 0 then ⟨nx / length, ny / length⟩ else ⟨nx, ny⟩
      ⟨current.x + normal.x * dist, current.y + normal.y * dist⟩

/-- LineWeightSimulator.shortenPath: drop a factor/2 share of the vertices
from both ends (JavaScript slice on in-range integer indices). -/
def shortenPath (path : PPath) (factor : ℝ) : PPath :=
  if path.length < 3 then path
  else
    let removeCount : ℤ := ⌊(path.length : ℝ) * factor / 2⌋
    let startIndex : ℤ := max 0 removeCount
    let endIndex : ℤ := min (path.length : ℤ) ((path.length : ℤ) - removeCount)
    (path.take endIndex.toNat).drop startIndex.toNat

/-- LineWeightSimulator.createParallelLines. -/
def createParallelLines (centerline : PPath) (weight : ℝ) : List PPath :=
  let thickness := (weight - 1) * 2
  let numLines : ℕ := max 1 (⌈weight * 2⌉).toNat
  (List.range numLines).filterMap fun i =>
    let offset := ((i : ℝ) - ((numLines : ℝ) - 1) / 2) *
      (thickness / max 1 ((numLines : ℝ) - 1))
    let offsetP := offsetPath centerline offset
    if offsetP.length > 1 then some offsetP else none

/-- LineWeightSimulator.createOutlineFill. -/
def createOutlineFill (centerline : PPath) (weight : ℝ) : List PPath :=
  let thickness := (weight - 1) * 2
  let topOutline := offsetPath centerline (thickness / 2)
  let bottomOutline := offsetPath centerline (-(thickness / 2))
  let fillSpacing := max 0.5 (thickness / 8)
  let numFillLines : ℤ := ⌊thickness / fillSpacing⌋ - 1
  ((if topOutline.length > 1 then [topOutline] else []) ++
    (if bottomOutline.length > 1 then [bottomOutline] else [])) ++
  (List.range numFillLines.toNat).filterMap fun k =>
    let offset := -(thickness / 2) + ((k : ℝ) + 1) * fillSpacing
    let fillPath := offsetPath centerline offset
    if fillPath.length > 1 then some (shortenPath fillPath 0.1) else none

/-- One step of the seeded linear congruential generator used by the
scribble fill. -/
def lcgNext (state : ℕ) : ℕ := (state * 1664525 + 1013904223) % 4294967296

/-- The value in [0, 1) returned by a draw whose updated state is given. -/
def lcgVal (state : ℕ) : ℝ := (state : ℝ) / 4294967296

/-- The vertex loop of LineWeightSimulator.createScribbleAroundPath,
threading the LCG state; every vertex draws wobbleX, wobbleY and the
insertion test, and an accepted insertion draws two more values. -/
def createScribbleAux (wobbleAmount : ℝ) : List Pt → ℕ → List Pt
  | [], _ => []
  | p :: rest, state =>
    let s1 := lcgNext state
    let s2 := lcgNext s1
    let pt1 : Pt := ⟨p.x + (lcgVal s1 - 0.5) * wobbleAmount,
                     p.y + (lcgVal s2 - 0.5) * wobbleAmount⟩
    let s3 := lcgNext s2
    match rest with
    | [] => [pt1]
    | next :: _ =>
      if lcgVal s3 < 0.3 then
        let s4 := lcgNext s3
        let s5 := lcgNext s4
        let mid : Pt := ⟨(p.x + next.x) / 2 + (lcgVal s4 - 0.5) * wobbleAmount,
                         (p.y + next.y) / 2 + (lcgVal s5 - 0.5) * wobbleAmount⟩
        pt1 :: mid :: createScribbleAux wobbleAmount rest s5
      else pt1 :: createScribbleAux wobbleAmount rest s3

/-- LineWeightSimulator.createScribbleAroundPath: jitter every vertex with
the LCG seeded by the copy index. -/
def createScribbleAroundPath (centerline : PPath) (thickness : ℝ) (seed : ℕ) : PPath :=
  createScribbleAux (thickness / 4) centerline seed

/-- LineWeightSimulator.createScribbleFill. -/
def createScribbleFill (centerline : PPath) (weight : ℝ) : List PPath :=
  let thickness := (weight - 1) * 2
  let scribbleIntensity := min thickness 4
  let numScribbles : ℕ := (⌈scribbleIntensity * 3⌉).toNat
  centerline :: (List.range numScribbles).filterMap fun i =>
    let scribblePath := createScribbleAroundPath centerline thickness i
    if scribblePath.length > 1 then some scribblePath else none

/-- LineWeightSimulator.createZigzagPattern. -/
def createZigzagPattern (centerline : PPath) (thickness : ℝ) : PPath :=
  let amplitude := thickness / 2
  let frequency := max 2 thickness
  (List.range (centerline.length - 1)).flatMap fun i =>
    let current := centerline.getD i default
    let next := centerline.getD (i + 1) default
    let normal := calculateNormal current next
    let segmentLength := Real.sqrt ((next.x - current.x) ^ 2 + (next.y - current.y) ^ 2)
    let numZigs : ℕ := max 1 (⌊segmentLength / frequency⌋).toNat
    (List.range (numZigs + 1)).map fun j =>
      let t := (j : ℝ) / (numZigs : ℝ)
      let basePoint : Pt := ⟨current.x + (next.x - current.x) * t,
                             current.y + (next.y - current.y) * t⟩
      let side : ℝ := if j % 2 = 0 then 1 else -1
      ⟨basePoint.x + normal.x * amplitude * side, basePoint.y + normal.y * amplitude * side⟩

/-- LineWeightSimulator.createZigzagFill. -/
def createZigzagFill (centerline : PPath) (weight : ℝ) : List PPath :=
  let thickness := (weight - 1) * 2
  let zigzagPath := createZigzagPattern centerline thickness
  let topOutline := offsetPath centerline (thickness / 2)
  let bottomOutline := offsetPath centerline (-(thickness / 2))
  (if zigzagPath.length > 1 then [zigzagPath] else []) ++
    (if topOutline.length > 1 then [topOutline] else []) ++
    (if bottomOutline.length > 1 then [bottomOutline] else [])

/-- LineWeightSimulator.simulateWeight: the per-path dispatch; short or
thin (weight at most 1) centerlines are returned untouched. -/
def simulateWeight (centerline : PPath) (weight : ℝ) (style : LineWeightStyle) : List PPath :=
  if centerline.length < 2 then [centerline]
  else if weight ≤ 1 then [centerline]
  else
    match style with
    | LineWeightStyle.parallel => createParallelLines centerline weight
    | LineWeightStyle.outline => createOutlineFill centerline weight
    | LineWeightStyle.scribble => createScribbleFill centerline weight
    | LineWeightStyle.zigzag => createZigzagFill centerline weight

/-- LineWeightSimulator.simulateVariableWeight: concatenate the simulated
paths of every weighted path. -/
def simulateVariableWeight (weightedPaths : List WeightedPath) : List PPath :=
  weightedPaths.flatMap fun wp => simulateWeight wp.centerline wp.weight wp.style

theorem simulateWeight_neutral (wp : WeightedPath)
    (h : wp.weight ≤ 1 ∨ wp.centerline.length < 2) :
    simulateWeight wp.centerline wp.weight wp.style = [wp.centerline] := by
  unfold simulateWeight
  by_cases hlen : wp.centerline.length < 2
  · rw [if_pos hlen]
  · rw [if_neg hlen, if_pos (h.resolve_right hlen)]

/-- C10: a WeightedPath whose weight is at most 1.0 or whose centerline has
fewer than 2 points contributes its centerline verbatim as its single
output path of LineWeightSimulator.simulateVariableWeight. -/
theorem simulateVariableWeight_neutral (pre post : List WeightedPath) (wp : WeightedPath)
    (h : wp.weight ≤ 1 ∨ wp.centerline.length < 2) :
    simulateVariableWeight (pre ++ wp :: post) =
      simulateVariableWeight pre ++ wp.centerline :: simulateVariableWeight post := by
  unfold simulateVariableWeight
  rw [List.flatMap_append, List.flatMap_cons, simulateWeight_neutral wp h]
  simp

/-- Witness for C10 at a concrete thin weighted path. -/
theorem simulateVariableWeight_neutral_witness :
    simulateVariableWeight [⟨[⟨0, 0⟩, ⟨1, 0⟩], 1 / 2, LineWeightStyle.scribble⟩] =
      [[⟨0, 0⟩, ⟨1, 0⟩]] := by
  have h := simulateVariableWeight_neutral [] []
    ⟨[⟨0, 0⟩, ⟨1, 0⟩], 1 / 2, LineWeightStyle.scribble⟩ (Or.inl (by norm_num))
  simpa [simulateVariableWeight] using h

end LineWeightSimulator

namespace VectorizationEngine

/-- The quantization step 255 / numColors of
VectorizationEngine.generateAdvancedHatching. -/
def quantStep (numColors : ℕ) : ℚ := 255 / numColors

/-- The per-pixel quantization loop of generateAdvancedHatching: the level
is the floor of intensity / step, and level * step is written back into the
8-bit image (the store truncates toward zero and wraps modulo 256). -/
def quantizePixel (numColors : ℕ) (g : ℕ) : ℕ :=
  let step := quantStep numColors
  let level : ℤ := ⌊(g : ℚ) / step⌋
  (⌊(level : ℚ) * step⌋).toNat % 256

/-- The level mask built by generateAdvancedHatching for one intensity
level.  The source calls the external OpenCV threshold with
THRESH_BINARY_INV at targetIntensity + step/2 and max value 255, whose
standard semantics writes 0 where the source pixel exceeds the threshold
and 255 elsewhere.  The grayscale image (also produced by the external
library) is taken as the input of the embedding. -/
def levelMask (numColors : ℕ) (gray : ℕ → ℕ) (level : ℕ) : ℕ → ℕ := fun p =>
  if (quantizePixel numColors (gray p) : ℚ) >
      (level : ℚ) * quantStep numColors + quantStep numColors / 2 then 0 else 255

/-- One invocation of the advanced hatcher requested by
generateAdvancedHatching: the binary mask and the normalized intensity. -/
structure HatchCall where
  mask : ℕ → ℕ
  intensity : ℚ

/-- The per-level loop of generateAdvancedHatching: for every level from 0
to numColors - 2, build the level mask and invoke the advanced hatcher with
normalized intensity 1 - level / (numColors - 1). -/
def hatchingLevelCalls (numColors : ℕ) (gray : ℕ → ℕ) : List HatchCall :=
  (List.range (numColors - 1)).map fun level =>
    ⟨levelMask numColors gray level, 1 - (level : ℚ) / ((numColors : ℚ) - 1)⟩

theorem levelMask_pos_iff (numColors : ℕ) (gray : ℕ → ℕ) (level p : ℕ) :
    levelMask numColors gray level p > 0 ↔
      (quantizePixel numColors (gray p) : ℚ) ≤
        ((level : ℚ) + 1 / 2) * quantStep numColors := by
  unfold levelMask
  have heq : ((level : ℚ) + 1 / 2) * quantStep numColors =
      (level : ℚ) * quantStep numColors + quantStep numColors / 2 := by ring
  rw [heq]
  split_ifs with hc
  · constructor
    · intro hfalse; omega
    · intro hle; exact absurd hle (not_le.mpr hc)
  · constructor
    · intro _; exact le_of_not_lt hc
    · intro _; omega

theorem hatchingLevelCalls_getD (numColors : ℕ) (gray : ℕ → ℕ) (level : ℕ)
    (h : level < numColors - 1) :
    (hatchingLevelCalls numColors gray).getD level ⟨fun _ => 0, 0⟩ =
      ⟨levelMask numColors gray level, 1 - (level : ℚ) / ((numColors : ℚ) - 1)⟩ := by
  unfold hatchingLevelCalls
  rw [List.getD_eq_getElem?_getD, List.getElem?_map, List.getElem?_range h]
  rfl

/-- C2 counterexample: with numColors = 2 and a uniform gray value of 200,
the level-0 mask rejects pixel 0 even though its quantized value 127 is at
least (0 + 0.5) * step = 63.75; the claimed at-least criterion is the
opposite of the THRESH_BINARY_INV selection the code performs. -/
theorem hatchingMask_counterexample :
    ((hatchingLevelCalls 2 fun _ => 200).getD 0 ⟨fun _ => 0, 0⟩).mask 0 = 0 ∧
      ((0 : ℚ) + 1 / 2) * quantStep 2 ≤ (quantizePixel 2 200 : ℚ) := by
  have hq : quantizePixel 2 200 = 127 := by
    unfold quantizePixel quantStep
    norm_num
    decide
  rw [hatchingLevelCalls_getD 2 (fun _ => 200) 0 (by norm_num)]
  constructor
  · show levelMask 2 (fun _ => 200) 0 0 = 0
    unfold levelMask
    rw [if_pos]
    rw [hq]
    unfold quantStep
    norm_num
  · rw [hq]
    unfold quantStep
    norm_num

/-- C2 amended: for every level L up to numColors - 2, the built mask
selects exactly the pixels whose quantized grayscale value is at most
(L + 0.5) * step, and the hatcher is invoked with normalized intensity
1 - L / (numColors - 1). -/
theorem hatchingLevelCalls_spec (numColors : ℕ) (gray : ℕ → ℕ) (level : ℕ)
    (h : level < numColors - 1) :
    ∀ p : ℕ,
      (((hatchingLevelCalls numColors gray).getD level ⟨fun _ => 0, 0⟩).mask p > 0 ↔
        (quantizePixel numColors (gray p) : ℚ) ≤
          ((level : ℚ) + 1 / 2) * quantStep numColors) ∧
      ((hatchingLevelCalls numColors gray).getD level ⟨fun _ => 0, 0⟩).intensity =
        1 - (level : ℚ) / ((numColors : ℚ) - 1) := by
  intro p
  rw [hatchingLevelCalls_getD numColors gray level h]
  exact ⟨levelMask_pos_iff numColors gray level p, rfl⟩

/-- Witness for the amended C2 statement at numColors = 3, level = 1. -/
theorem hatchingLevelCalls_spec_witness :
    (((hatchingLevelCalls 3 fun _ => 100).getD 1 ⟨fun _ => 0, 0⟩).mask 0 > 0 ↔
      (quantizePixel 3 100 : ℚ) ≤ (((1 : ℕ) : ℚ) + 1 / 2) * quantStep 3) ∧
    ((hatchingLevelCalls 3 fun _ => 100).getD 1 ⟨fun _ => 0, 0⟩).intensity =
      1 - ((1 : ℕ) : ℚ) / (((3 : ℕ) : ℚ) - 1) :=
  hatchingLevelCalls_spec 3 (fun _ => 100) 1 (by norm_num) 0

/-- A horizontal black run record of VectorizationEngine.traceCenterlines.
The mutable used flag of the source is modelled by a set of identifiers
(row index, index within the row) threaded through the stitching loops. -/
structure Seg where
  y : ℕ
  x1 : ℕ
  x2 : ℕ
  midX : ℚ

instance : Inhabited Seg := ⟨⟨0, 0, 0, 0⟩⟩

/-- Grayscale (R+G+B)/3 of pixel (x, y) read from the flat RGBA array. -/
def pixelGray (width : ℕ) (data : ℕ → ℕ) (x y : ℕ) : ℚ :=
  ((data ((y * width + x) * 4) + data ((y * width + x) * 4 + 1) +
    data ((y * width + x) * 4 + 2) : ℕ) : ℚ) / 3

/-- The black test gray < threshold of traceCenterlines. -/
def isBlackPixel (width : ℕ) (data : ℕ → ℕ) (threshold : ℚ) (x y : ℕ) : Bool :=
  decide (pixelGray width data x y < threshold)

/-- The per-row x sweep of traceCenterlines: maximal runs of black pixels,
closing an open run at the first white pixel and at the row end. -/
def rowSegsAux (y width : ℕ) (black : ℕ → Bool) (x : ℕ) (openRun : Option ℕ) : List Seg :=
  if x < width then
    match openRun, black x with
    | none, true => rowSegsAux y width black (x + 1) (some x)
    | none, false => rowSegsAux y width black (x + 1) none
    | some x1, true => rowSegsAux y width black (x + 1) (some x1)
    | some x1, false =>
      ⟨y, x1, x - 1, ((x1 : ℚ) + ((x - 1 : ℕ) : ℚ)) / 2⟩ :: rowSegsAux y width black (x + 1) none
  else
    match openRun with
    | some x1 => [⟨y, x1, width - 1, ((x1 : ℚ) + ((width - 1 : ℕ) : ℚ)) / 2⟩]
    | none => []
termination_by width - x

/-- All black runs of one row. -/
def rowSegments (width : ℕ) (black : ℕ → ℕ → Bool) (y : ℕ) : List Seg :=
  rowSegsAux y width (fun x => black x y) 0 none

/-- segmentsByRow of traceCenterlines. -/
def segmentsByRow (width height : ℕ) (black : ℕ → ℕ → Bool) : List (List Seg) :=
  (List.range height).map (rowSegments width black)

/-- The horizontalDistance of findClosestUnusedSegment: how far apart the
x-extents of two runs are (0 when they overlap). -/
def horizGap (cur cand : Seg) : ℚ :=
  max 0 (((max cur.x1 cand.x1 : ℕ) : ℚ) - ((min cur.x2 cand.x2 : ℕ) : ℚ))

/-- The totalDistance of findClosestUnusedSegment: midpoint distance plus
half the horizontal gap. -/
def stitchCost (cur cand : Seg) : ℚ :=
  |cur.midX - cand.midX| + horizGap cur cand * (1 / 2)

/-- One candidate step of findClosestUnusedSegment: skip used segments,
require horizontal overlap gap within 2 * proximity, and keep the candidate
with the strictly smallest combined distance (first wins ties). -/
def fcusFold (cur : Seg) (row : ℕ) (used : Finset (ℕ × ℕ)) (proximity : ℚ)
    (best : Option ((ℕ × Seg) × ℚ)) (cand : ℕ × Seg) : Option ((ℕ × Seg) × ℚ) :=
  if (row, cand.1) ∈ used then best
  else if horizGap cur cand.2 ≤ proximity * 2 then
    match best with
    | none => some (cand, stitchCost cur cand.2)
    | some (x, bestDist) =>
      if stitchCost cur cand.2 < bestDist then some (cand, stitchCost cur cand.2)
      else some (x, bestDist)
  else best

/-- VectorizationEngine.findClosestUnusedSegment over the indexed segments
of one row. -/
def findClosestUnusedSegment (cur : Seg) (row : ℕ) (cands : List (ℕ × Seg))
    (used : Finset (ℕ × ℕ)) (proximity : ℚ) : Option (ℕ × Seg) :=
  (cands.foldl (fcusFold cur row used proximity) none).map Prod.fst

/-- The upward or downward tracing loop of traceCenterlines: follow the
given row order, always selecting the closest unused segment of the next
row and marking it used; stop at the first row with no candidate. -/
def traceAdj (rows : List (List Seg)) (proximity : ℚ) :
    List ℕ → Seg → Finset (ℕ × ℕ) → List (ℕ × ℕ) × Finset (ℕ × ℕ)
  | [], _, used => ([], used)
  | r :: rest, cur, used =>
    match findClosestUnusedSegment cur r (rows.getD r []).enum used proximity with
    | some (j, seg) =>
      let res := traceAdj rows proximity rest seg (insert (r, j) used)
      ((r, j) :: res.1, res.2)
    | none => ([], used)

/-- The (row, index) iteration order of the outer stitching loops. -/
def segPairs (rows : List (List Seg)) : List (ℕ × ℕ) :=
  (List.range rows.length).flatMap fun y =>
    (List.range (rows.getD y []).length).map fun j => (y, j)

/-- The body of one outer stitching iteration of traceCenterlines starting
at unused segment (y, j): mark it used, trace upward through the rows above
(prepending), reset to the start segment and trace downward (appending);
returns the assembled path and the updated used set. -/
def stitchOne (rows : List (List Seg)) (proximity : ℚ) (y j : ℕ)
    (used : Finset (ℕ × ℕ)) : List (ℕ × ℕ) × Finset (ℕ × ℕ) :=
  let seg := (rows.getD y []).getD j default
  let up := traceAdj rows proximity (List.range y).reverse seg (insert (y, j) used)
  let down := traceAdj rows proximity ((List.range rows.length).drop (y + 1)) seg up.2
  (up.1.reverse ++ (y, j) :: down.1, down.2)

/-- The outer stitching loop of traceCenterlines: starting at every unused
segment, trace in both directions and keep paths with at least 3 segments.
Paths hold segment identifiers (row, index). -/
def stitchGo (rows : List (List Seg)) (proximity : ℚ) :
    List (ℕ × ℕ) → Finset (ℕ × ℕ) → List (List (ℕ × ℕ))
  | [], _ => []
  | (y, j) :: rest, used =>
    if (y, j) ∈ used then stitchGo rows proximity rest used
    else
      if (stitchOne rows proximity y j used).1.length ≥ 3 then
        (stitchOne rows proximity y j used).1 ::
          stitchGo rows proximity rest (stitchOne rows proximity y j used).2
      else stitchGo rows proximity rest (stitchOne rows proximity y j used).2

/-- The segment-identifier paths produced by traceCenterlines. -/
def centerlineSegPaths (width height : ℕ) (data : ℕ → ℕ) (threshold proximity : ℚ) :
    List (List (ℕ × ℕ)) :=
  let rows := segmentsByRow width height (isBlackPixel width data threshold)
  stitchGo rows proximity (segPairs rows) ∅

/-- A 2D point with rational coordinates for the centerline output. -/
structure PtQ where
  x : ℚ
  y : ℚ

/-- VectorizationEngine.traceCenterlines: the emitted point paths, mapping
every stitched segment to (midX, y). -/
def traceCenterlines (width height : ℕ) (data : ℕ → ℕ) (threshold proximity : ℚ) :
    List (List PtQ) :=
  let rows := segmentsByRow width height (isBlackPixel width data threshold)
  (stitchGo rows proximity (segPairs rows) ∅).map fun path =>
    path.map fun id =>
      let s := (rows.getD id.1 []).getD id.2 default
      ⟨s.midX, (s.y : ℚ)⟩

theorem fcus_not_used (cur : Seg) (row : ℕ) (cands : List (ℕ × Seg))
    (used : Finset (ℕ × ℕ)) (proximity : ℚ) (j : ℕ) (seg : Seg)
    (h : findClosestUnusedSegment cur row cands used proximity = some (j, seg)) :
    (row, j) ∉ used := by
  unfold findClosestUnusedSegment at h
  have hP := PathOptimizer.foldl_inv (fcusFold cur row used proximity)
    (fun b => ∀ c, b = some c → (row, c.1.1) ∉ used)
    (fun b cand hb => by
      intro c hc
      unfold fcusFold at hc
      by_cases hu : (row, cand.1) ∈ used
      · rw [if_pos hu] at hc; exact hb c hc
      · rw [if_neg hu] at hc
        by_cases hh : horizGap cur cand.2 ≤ proximity * 2
        · rw [if_pos hh] at hc
          cases b with
          | none =>
            injection hc with hc
            rw [← hc]; exact hu
          | some xb =>
            obtain ⟨x, bestDist⟩ := xb
            dsimp only at hc
            by_cases hlt : stitchCost cur cand.2 < bestDist
            · rw [if_pos hlt] at hc
              injection hc with hc
              rw [← hc]; exact hu
            · rw [if_neg hlt] at hc
              injection hc with hc
              rw [← hc]
              exact hb (x, bestDist) rfl
        · rw [if_neg hh] at hc; exact hb c hc)
    cands none (by intro c hc; cases hc)
  cases hfold : cands.foldl (fcusFold cur row used proximity) none with
  | none => rw [hfold] at h; simp at h
  | some c =>
    rw [hfold] at h
    simp only [Option.map_some', Option.some.injEq] at h
    have hres := hP c hfold
    rw [h] at hres
    exact hres

theorem traceAdj_spec (rows : List (List Seg)) (proximity : ℚ) :
    ∀ (rs : List ℕ) (cur : Seg) (used : Finset (ℕ × ℕ)),
      (∀ id ∈ (traceAdj rows proximity rs cur used).1, id ∉ used) ∧
      (traceAdj rows proximity rs cur used).1.Nodup ∧
      (∀ id, id ∈ (traceAdj rows proximity rs cur used).2 ↔
        id ∈ used ∨ id ∈ (traceAdj rows proximity rs cur used).1)
  | [], cur, used => by
    refine ⟨by simp [traceAdj], by simp [traceAdj], ?_⟩
    intro id; simp [traceAdj]
  | r :: rest, cur, used => by
    rw [traceAdj]
    cases hF : findClosestUnusedSegment cur r (rows.getD r []).enum used proximity with
    | none =>
      refine ⟨by simp, by simp, ?_⟩
      intro id; simp
    | some js =>
      obtain ⟨j, seg⟩ := js
      have hnu : (r, j) ∉ used := fcus_not_used cur r _ used proximity j seg hF
      obtain ⟨ih1, ih2, ih3⟩ := traceAdj_spec rows proximity rest seg (insert (r, j) used)
      simp only
      refine ⟨?_, ?_, ?_⟩
      · intro id hid
        rcases List.mem_cons.mp hid with hid | hid
        · rw [hid]; exact hnu
        · intro hmem
          exact ih1 id hid (Finset.mem_insert_of_mem hmem)
      · rw [List.nodup_cons]
        refine ⟨?_, ih2⟩
        intro hmem
        exact ih1 _ hmem (Finset.mem_insert_self _ _)
      · intro id
        rw [ih3 id, Finset.mem_insert, List.mem_cons]
        tauto

theorem stitchOne_spec (rows : List (List Seg)) (proximity : ℚ) (y j : ℕ)
    (used : Finset (ℕ × ℕ)) (hu : (y, j) ∉ used) :
    (stitchOne rows proximity y j used).1.Nodup ∧
    (∀ id ∈ (stitchOne rows proximity y j used).1, id ∉ used) ∧
    (∀ id ∈ (stitchOne rows proximity y j used).1, id ∈ (stitchOne rows proximity y j used).2) ∧
    (∀ id ∈ used, id ∈ (stitchOne rows proximity y j used).2) := by
  obtain ⟨up1, up2, up3⟩ := traceAdj_spec rows proximity (List.range y).reverse
    ((rows.getD y []).getD j default) (insert (y, j) used)
  obtain ⟨dn1, dn2, dn3⟩ := traceAdj_spec rows proximity
    ((List.range rows.length).drop (y + 1)) ((rows.getD y []).getD j default)
    (traceAdj rows proximity (List.range y).reverse
      ((rows.getD y []).getD j default) (insert (y, j) used)).2
  simp only [stitchOne]
  refine ⟨?_, ?_, ?_, ?_⟩
  · rw [List.nodup_append]
    refine ⟨List.nodup_reverse.mpr up2, ?_, ?_⟩
    · rw [List.nodup_cons]
      refine ⟨?_, dn2⟩
      intro hmem
      exact dn1 _ hmem ((up3 _).mpr (Or.inl (Finset.mem_insert_self _ _)))
    · intro a ha hb
      rw [List.mem_reverse] at ha
      rcases List.mem_cons.mp hb with hb | hb
      · rw [hb] at ha
        exact up1 _ ha (Finset.mem_insert_self _ _)
      · exact dn1 a hb ((up3 a).mpr (Or.inr ha))
  · intro id hid
    rw [List.mem_append, List.mem_reverse, List.mem_cons] at hid
    rcases hid with hid | hid | hid
    · intro hmem
      exact up1 id hid (Finset.mem_insert_of_mem hmem)
    · rw [hid]; exact hu
    · intro hmem
      exact dn1 id hid ((up3 id).mpr (Or.inl (Finset.mem_insert_of_mem hmem)))
  · intro id hid
    rw [List.mem_append, List.mem_reverse, List.mem_cons] at hid
    rcases hid with hid | hid | hid
    · exact (dn3 id).mpr (Or.inl ((up3 id).mpr (Or.inr hid)))
    · rw [hid]
      exact (dn3 _).mpr (Or.inl ((up3 _).mpr (Or.inl (Finset.mem_insert_self _ _))))
    · exact (dn3 id).mpr (Or.inr hid)
  · intro id hid
    exact (dn3 id).mpr (Or.inl ((up3 id).mpr (Or.inl (Finset.mem_insert_of_mem hid))))

theorem stitchGo_spec (rows : List (List Seg)) (proximity : ℚ) :
    ∀ (pairs : List (ℕ × ℕ)) (used : Finset (ℕ × ℕ)),
      (stitchGo rows proximity pairs used).flatten.Nodup ∧
      (∀ id ∈ (stitchGo rows proximity pairs used).flatten, id ∉ used)
  | [], used => by
    refine ⟨by simp [stitchGo], ?_⟩
    intro id; simp [stitchGo]
  | (y, j) :: rest, used => by
    rw [stitchGo]
    by_cases hu : (y, j) ∈ used
    · rw [if_pos hu]
      exact stitchGo_spec rows proximity rest used
    · rw [if_neg hu]
      obtain ⟨hnd, hnu, hmem, hsub⟩ := stitchOne_spec rows proximity y j used hu
      obtain ⟨ih1, ih2⟩ := stitchGo_spec rows proximity rest
        (stitchOne rows proximity y j used).2
      by_cases hlen : (stitchOne rows proximity y j used).1.length ≥ 3
      · rw [if_pos hlen]
        have hflat : ((stitchOne rows proximity y j used).1 ::
            stitchGo rows proximity rest (stitchOne rows proximity y j used).2).flatten =
            (stitchOne rows proximity y j used).1 ++
            (stitchGo rows proximity rest (stitchOne rows proximity y j used).2).flatten := rfl
        refine ⟨?_, ?_⟩
        · rw [hflat, List.nodup_append]
          exact ⟨hnd, ih1, fun a ha hb => ih2 a hb (hmem a ha)⟩
        · intro id hid
          rw [hflat, List.mem_append] at hid
          rcases hid with hid | hid
          · exact hnu id hid
          · intro hm
            exact ih2 id hid (hsub id hm)
      · rw [if_neg hlen]
        exact ⟨ih1, fun id hid hm => ih2 id hid (hsub id hm)⟩

/-- C5: in Centerline mode every detected horizontal black run is included
in at most one emitted path: the identifier paths produced by the stitcher
are globally duplicate-free, for every raster, threshold and proximity. -/
theorem centerlineSegPaths_used_once (width height : ℕ) (data : ℕ → ℕ)
    (threshold proximity : ℚ) :
    (centerlineSegPaths width height data threshold proximity).flatten.Nodup :=
  (stitchGo_spec _ proximity _ ∅).1

end VectorizationEngine

namespace AdvancedHatcher

/-- An OpenCV 8-bit matrix as consumed by the advanced hatcher: row and
column counts with a per-cell value accessor (ucharPtr). -/
structure CvMat where
  rows : ℕ
  cols : ℕ
  data : ℕ → ℕ → ℕ

/-- AdvancedHatcher.isPointInMask: floor the coordinates, reject points
outside the matrix, and test the cell against zero. -/
def isPointInMask (point : Pt) (mask : CvMat) : Bool :=
  if ⌊point.x⌋ < 0 ∨ (mask.cols : ℤ) ≤ ⌊point.x⌋ ∨ ⌊point.y⌋ < 0 ∨
      (mask.rows : ℤ) ≤ ⌊point.y⌋ then false
  else decide (mask.data ⌊point.y⌋.toNat ⌊point.x⌋.toNat > 0)

/-- One scan along a hatch line of generateParallelHatching: rounded sample
positions, in-bounds tests, and maximal in-mask runs of more than one
point.  State: (emitted paths, current run, inRegion flag). -/
def sampleHatchLine (mask : CvMat) (width height : ℕ) (startX startY endX endY : ℝ)
    (steps : ℕ) : List PPath :=
  let final := (List.range (steps + 1)).foldl (fun st step =>
    let t := (step : ℝ) / (steps : ℝ)
    let x := round (startX + (endX - startX) * t)
    let y := round (startY + (endY - startY) * t)
    if 0 ≤ x ∧ x < (width : ℤ) ∧ 0 ≤ y ∧ y < (height : ℤ) then
      if isPointInMask ⟨(x : ℝ), (y : ℝ)⟩ mask then (st.1, st.2.1 ++ [(⟨(x : ℝ), (y : ℝ)⟩ : Pt)], true)
      else if st.2.2 then
        (st.1 ++ (if st.2.1.length > 1 then [st.2.1] else []), ([] : PPath), false)
      else st
    else st) (([] : List PPath), ([] : PPath), false)
  final.1 ++ (if final.2.1.length > 1 then [final.2.1] else [])

/-- The iteration count of the source loop for offset from -diagonal while
offset < diagonal stepping by spacing.  For positive spacing the loop body
runs exactly ceil(2 * diagonal / spacing) times; for nonpositive spacing
the source loop would never terminate (or never run), which no caller
reaches, and the model runs it zero times. -/
def offsetCount (diagonal spacing : ℝ) : ℕ :=
  if spacing ≤ 0 then 0 else (⌈2 * diagonal / spacing⌉).toNat

/-- AdvancedHatcher.generateParallelHatching. -/
def generateParallelHatching (mask : CvMat) (intensity baseSpacing angle : ℝ)
    (width height : ℕ) : List PPath :=
  let radians := angle * Real.pi / 180
  let spacing := baseSpacing / max 0.3 intensity
  let diagonal := Real.sqrt ((width : ℝ) * width + (height : ℝ) * height)
  (List.range (offsetCount diagonal spacing)).flatMap fun k =>
    let offset := -diagonal + (k : ℝ) * spacing
    sampleHatchLine mask width height
      (-diagonal * Real.cos radians + offset * (-Real.sin radians))
      (-diagonal * Real.sin radians + offset * Real.cos radians)
      (diagonal * Real.cos radians + offset * (-Real.sin radians))
      (diagonal * Real.sin radians + offset * Real.cos radians)
      (⌊diagonal * 2⌋).toNat

/-- JavaScript Array.prototype.slice on integer arguments: negative
indices count from the end and everything is clamped to the array range. -/
def jsSlice {α : Type _} (l : List α) (s e : ℤ) : List α :=
  (l.take (if e < 0 then max ((l.length : ℤ) + e) 0 else min e (l.length : ℤ)).toNat).drop
    (if s < 0 then max ((l.length : ℤ) + s) 0 else min s (l.length : ℤ)).toNat

/-- AdvancedHatcher.varyLineLength: trim (or, for factors above 1, attempt
to extend) a path to floor(length * factor) points, centered, via the
JavaScript slice call the source performs. -/
def varyLineLength (path : PPath) (factor : ℝ) : PPath :=
  if path.length < 2 then path
  else if ⌊(path.length : ℝ) * factor⌋ < 2 then [path.getD 0 default, path.getD 1 default]
  else
    jsSlice path ⌊((((path.length : ℤ) - ⌊(path.length : ℝ) * factor⌋ : ℤ)) : ℝ) / 2⌋
      (⌊((((path.length : ℤ) - ⌊(path.length : ℝ) * factor⌋ : ℤ)) : ℝ) / 2⌋ +
        ⌊(path.length : ℝ) * factor⌋)

/-- The angle cycle of generateCrossHatching. -/
def crossAngle (primaryAngle : ℝ) (layer : ℕ) : ℝ :=
  [primaryAngle, primaryAngle + 90, primaryAngle + 45, primaryAngle + 135].getD
    (layer % 4) primaryAngle

/-- AdvancedHatcher.generateCrossHatching.  The Math.random() draws used to
vary layer line lengths are modelled by the explicit ambient stream rand,
consumed one value per path of every layer after the first. -/
def generateCrossHatching (mask : CvMat) (intensity baseSpacing primaryAngle : ℝ)
    (width height : ℕ) (rand : ℕ → ℝ) : List PPath :=
  ((List.range (⌈intensity * 4⌉).toNat).foldl (fun acc layer =>
    let layerPaths := generateParallelHatching mask 1.0
      (baseSpacing * (1 + (((layer : ℕ) : ℝ)) * 0.3)) (crossAngle primaryAngle layer)
      width height
    if layer > 0 then
      (acc.1 ++ layerPaths.enum.map fun jk =>
        varyLineLength jk.2 (0.8 + rand (acc.2 + jk.1) * 0.4),
       acc.2 + layerPaths.length)
    else (acc.1 ++ layerPaths, acc.2)) (([] : List PPath), 0)).1

/-- C9: varyLineLength applied to a 6-point parallel-hatch run with the
random length factor 0.8 + 0.95 * 0.4 = 1.18 (a reachable Math.random draw
of 0.95 in any cross-hatch layer after the first) returns a single-point
path: floor(6 * 1.18) = 7 makes startIndex = floor(-1/2) = -1, and the
JavaScript slice(-1, 6) keeps only the final point, contradicting the
claimed minimum of 2 points per emitted polyline. -/
theorem varyLineLength_single_point :
    (varyLineLength [⟨0, 0⟩, ⟨1, 0⟩, ⟨2, 0⟩, ⟨3, 0⟩, ⟨4, 0⟩, ⟨5, 0⟩]
      (0.8 + 0.95 * 0.4)).length = 1 := by
  unfold varyLineLength
  rw [if_neg (by decide)]
  have h6 : ([⟨0, 0⟩, ⟨1, 0⟩, ⟨2, 0⟩, ⟨3, 0⟩, ⟨4, 0⟩, ⟨5, 0⟩] : PPath).length = 6 := rfl
  rw [h6]
  have hfl1 : ⌊((6 : ℕ) : ℝ) * (0.8 + 0.95 * 0.4)⌋ = (7 : ℤ) := by
    rw [Int.floor_eq_iff]
    norm_num
  rw [hfl1]
  rw [if_neg (by norm_num)]
  have hfl2 : ⌊(((((6 : ℕ) : ℤ) - (7 : ℤ) : ℤ)) : ℝ) / 2⌋ = (-1 : ℤ) := by
    rw [Int.floor_eq_iff]
    norm_num
  rw [hfl2]
  unfold jsSlice
  rw [h6]
  norm_num
  decide

end AdvancedHatcher

namespace AdvancedHatcher

/-- A pointwise grid cell update for the Poisson-disk sampling grid. -/
def gridSet (g : ℕ → ℕ → Option Pt) (i j : ℕ) (p : Pt) : ℕ → ℕ → Option Pt :=
  fun a b => if a = i ∧ b = j then some p else g a b

/-- The 5x5 grid-neighborhood validity check of poissonDiskSampling: no
already-placed sample within minDist of the candidate. -/
def poissonValid (grid : ℕ → ℕ → Option Pt) (gridWidth gridHeight : ℕ)
    (gridX gridY : ℕ) (candidate : Pt) (minDist : ℝ) : Bool :=
  (List.range 5).all fun dxi => (List.range 5).all fun dyi =>
    if 0 ≤ (gridX : ℤ) + dxi - 2 ∧ (gridX : ℤ) + dxi - 2 < gridWidth ∧
        0 ≤ (gridY : ℤ) + dyi - 2 ∧ (gridY : ℤ) + dyi - 2 < gridHeight then
      match grid ((gridX : ℤ) + dxi - 2).toNat ((gridY : ℤ) + dyi - 2).toNat with
      | some neighbor => decide (minDist ≤ Real.sqrt ((candidate.x - neighbor.x) ^ 2 +
          (candidate.y - neighbor.y) ^ 2))
      | none => true
    else true

/-- The k-attempt candidate loop of poissonDiskSampling around the current
active sample.  Every attempt draws an angle and a distance from the
ambient random stream; an in-bounds candidate passing the neighborhood
check is returned with its grid cell. -/
def attemptLoop (rand : ℕ → ℝ) (width height : ℕ) (minDist maxDist cellSize : ℝ)
    (gridWidth gridHeight : ℕ) (current : Pt) (grid : ℕ → ℕ → Option Pt) :
    ℕ → ℕ → Option (Pt × ℕ × ℕ) × ℕ
  | 0, ctr => (none, ctr)
  | k + 1, ctr =>
    let angle := rand ctr * (2 * Real.pi)
    let dist := minDist + rand (ctr + 1) * (maxDist - minDist)
    let candidate : Pt := ⟨current.x + Real.cos angle * dist,
                           current.y + Real.sin angle * dist⟩
    if 0 ≤ candidate.x ∧ candidate.x < (width : ℝ) ∧
        0 ≤ candidate.y ∧ candidate.y < (height : ℝ) then
      if poissonValid grid gridWidth gridHeight (⌊candidate.x / cellSize⌋).toNat
          (⌊candidate.y / cellSize⌋).toNat candidate minDist then
        (some (candidate, (⌊candidate.x / cellSize⌋).toNat, (⌊candidate.y / cellSize⌋).toNat),
         ctr + 2)
      else attemptLoop rand width height minDist maxDist cellSize gridWidth gridHeight
        current grid k (ctr + 2)
    else attemptLoop rand width height minDist maxDist cellSize gridWidth gridHeight
      current grid k (ctr + 2)

/-- The main while loop of poissonDiskSampling, with fuel.  Every iteration
either appends one sample (at most ceil(target) + 1 times, since the loop
only runs while the sample count is below the target) or removes one
active entry (at most one more than the number of appends), so the
caller's fuel of twice the target bound covers the source loop. -/
def poissonLoop (rand : ℕ → ℝ) (width height : ℕ) (minDist maxDist density cellSize : ℝ)
    (gridWidth gridHeight : ℕ) :
    ℕ → List Pt → List Pt → (ℕ → ℕ → Option Pt) → ℕ → List Pt × ℕ
  | 0, points, _, _, ctr => (points, ctr)
  | fuel + 1, points, active, grid, ctr =>
    if active.length > 0 ∧
        (points.length : ℝ) < (width : ℝ) * height * density / (minDist * minDist) then
      match attemptLoop rand width height minDist maxDist cellSize gridWidth gridHeight
        (active.getD (⌊rand ctr * active.length⌋).toNat default) grid 30 (ctr + 1) with
      | (some (cand, gx, gy), ctr2) =>
        poissonLoop rand width height minDist maxDist density cellSize gridWidth gridHeight
          fuel (points ++ [cand]) (active ++ [cand]) (gridSet grid gx gy cand) ctr2
      | (none, ctr2) =>
        poissonLoop rand width height minDist maxDist density cellSize gridWidth gridHeight
          fuel points (active.eraseIdx (⌊rand ctr * active.length⌋).toNat) grid ctr2
    else (points, ctr)

/-- AdvancedHatcher.poissonDiskSampling (Bridson-style), threading the
ambient Math.random stream; returns the samples and the next draw index. -/
def poissonDiskSampling (rand : ℕ → ℝ) (width height : ℕ)
    (minDist maxDist density : ℝ) : List Pt × ℕ :=
  let cellSize := minDist / Real.sqrt 2
  let first : Pt := ⟨rand 0 * width, rand 1 * height⟩
  poissonLoop rand width height minDist maxDist density cellSize
    (⌈(width : ℝ) / cellSize⌉).toNat (⌈(height : ℝ) / cellSize⌉).toNat
    (2 * ((⌈(width : ℝ) * height * density / (minDist * minDist)⌉).toNat + 3))
    [first] [first]
    (gridSet (fun _ _ => none) (⌊first.x / cellSize⌋).toNat (⌊first.y / cellSize⌋).toNat first)
    2

/-- AdvancedHatcher.generateStippling: Poisson-disk samples filtered by the
mask, each emitted as a 2-point dot whose length draws one more random
value. -/
def generateStippling (mask : CvMat) (intensity baseSpacing : ℝ) (width height : ℕ)
    (rand : ℕ → ℝ) : List PPath :=
  ((poissonDiskSampling rand width height (baseSpacing * 0.5) (baseSpacing * 2)
      (intensity * 0.3)).1.foldl (fun acc dot =>
    if isPointInMask dot mask then
      (acc.1 ++ [[dot, ⟨dot.x + (0.5 + rand acc.2 * 1), dot.y⟩]], acc.2 + 1)
    else acc)
    (([] : List PPath),
     (poissonDiskSampling rand width height (baseSpacing * 0.5) (baseSpacing * 2)
       (intensity * 0.3)).2)).1

theorem poissonLoop_stop (rand : ℕ → ℝ) (width height : ℕ)
    (minDist maxDist density cellSize : ℝ) (gridWidth gridHeight : ℕ)
    (points active : List Pt) (grid : ℕ → ℕ → Option Pt) (ctr : ℕ)
    (h : ¬(active.length > 0 ∧
      (points.length : ℝ) < (width : ℝ) * height * density / (minDist * minDist))) :
    ∀ fuel, poissonLoop rand width height minDist maxDist density cellSize
      gridWidth gridHeight fuel points active grid ctr = (points, ctr)
  | 0 => rfl
  | fuel + 1 => by
    rw [poissonLoop, if_neg h]

theorem stippling_evalA :
    generateStippling ⟨4, 4, fun _ _ => 255⟩ (1 / 2) 4 4 4 (fun _ => 0) =
      [[⟨0, 0⟩, ⟨1 / 2, 0⟩]] := by
  unfold generateStippling poissonDiskSampling
  rw [poissonLoop_stop _ _ _ _ _ _ _ _ _ _ _ _ _ (by
    intro hcond
    have := hcond.2
    norm_num at this)]
  simp only [List.foldl]
  rw [if_pos (by
    unfold isPointInMask
    rw [if_neg (by norm_num)]
    norm_num)]
  norm_num

theorem stippling_evalB :
    generateStippling ⟨4, 4, fun _ _ => 255⟩ (1 / 2) 4 4 4 (fun _ => 1 / 2) =
      [[⟨2, 2⟩, ⟨3, 2⟩]] := by
  unfold generateStippling poissonDiskSampling
  rw [poissonLoop_stop _ _ _ _ _ _ _ _ _ _ _ _ _ (by
    intro hcond
    have := hcond.2
    norm_num at this)]
  simp only [List.foldl]
  rw [if_pos (by
    unfold isPointInMask
    rw [if_neg (by norm_num)]
    norm_num)]
  norm_num

/-- C3: the stippling stage reads the ambient unseeded Math.random stream:
two invocations with identical mask, intensity, spacing and canvas size
but different ambient random sequences return different path lists, and
generateHatching exposes no seed parameter that could fix the stream. -/
theorem generateStippling_ambient_random :
    generateStippling ⟨4, 4, fun _ _ => 255⟩ (1 / 2) 4 4 4 (fun _ => 0) ≠
      generateStippling ⟨4, 4, fun _ _ => 255⟩ (1 / 2) 4 4 4 (fun _ => 1 / 2) := by
  rw [stippling_evalA, stippling_evalB]
  intro h
  have h1 := List.head_eq_of_cons_eq h
  have h2 : ((0 : ℝ)) = (2 : ℝ) := congrArg Pt.x (List.head_eq_of_cons_eq h1)
  norm_num at h2

end AdvancedHatcher

namespace PathOptimizer

theorem dist_10_11 : distance ⟨10, 0⟩ ⟨11, 0⟩ = 1 := by
  unfold distance
  norm_num

theorem dist_10_20 : distance ⟨10, 0⟩ ⟨20, 0⟩ = 10 := by
  unfold distance
  rw [show ((20 : ℝ) - 10) * ((20 : ℝ) - 10) + ((0 : ℝ) - 0) * ((0 : ℝ) - 0) = 10 ^ 2 by
    norm_num]
  exact Real.sqrt_sq (by norm_num)

theorem dist_0_11 : distance ⟨0, 0⟩ ⟨11, 0⟩ = 11 := by
  unfold distance
  rw [show ((11 : ℝ) - 0) * ((11 : ℝ) - 0) + ((0 : ℝ) - 0) * ((0 : ℝ) - 0) = 11 ^ 2 by
    norm_num]
  exact Real.sqrt_sq (by norm_num)

theorem dist_0_20 : distance ⟨0, 0⟩ ⟨20, 0⟩ = 20 := by
  unfold distance
  rw [show ((20 : ℝ) - 0) * ((20 : ℝ) - 0) + ((0 : ℝ) - 0) * ((0 : ℝ) - 0) = 20 ^ 2 by
    norm_num]
  exact Real.sqrt_sq (by norm_num)

theorem tryMerge_eval :
    tryMergePaths [⟨0, 0⟩, ⟨10, 0⟩] [⟨11, 0⟩, ⟨20, 0⟩] 5 =
      some [⟨0, 0⟩, ⟨10, 0⟩, ⟨11, 0⟩, ⟨20, 0⟩] := by
  simp only [tryMergePaths, List.head?_cons, List.getLast?_cons_cons, List.getLast?_singleton,
    List.foldl_cons, List.foldl_nil, dist_10_11, dist_10_20, dist_0_11, dist_0_20]
  norm_num

theorem mergeLoop_succ (paths : List PPath) (threshold : ℝ) (fuel : ℕ)
    (current : PPath) (used : Finset ℕ) :
    mergeLoop paths threshold (fuel + 1) current used =
      match findMergeCandidate paths used current threshold with
      | some (j, merged) => mergeLoop paths threshold fuel merged (insert j used)
      | none => (current, used) := rfl

theorem mergeOuter_cons (paths : List PPath) (threshold : ℝ) (i : ℕ) (p : PPath)
    (rest : List (ℕ × PPath)) (used : Finset ℕ) :
    mergeOuter paths threshold ((i, p) :: rest) used =
      if i ∈ used then mergeOuter paths threshold rest used
      else
        if (mergeLoop paths threshold (paths.length + 1) p (insert i used)).1.length > 0 then
          (mergeLoop paths threshold (paths.length + 1) p (insert i used)).1 ::
            mergeOuter paths threshold rest
              (mergeLoop paths threshold (paths.length + 1) p (insert i used)).2
        else mergeOuter paths threshold rest
          (mergeLoop paths threshold (paths.length + 1) p (insert i used)).2 := rfl

/-- C8: merging the two paths of scenario S2 with threshold 5 produces the
single spliced path. -/
theorem merge_eval_s2 :
    mergePaths [[⟨0, 0⟩, ⟨10, 0⟩], [⟨11, 0⟩, ⟨20, 0⟩]] 5 =
      [[⟨0, 0⟩, ⟨10, 0⟩, ⟨11, 0⟩, ⟨20, 0⟩]] := by
  have henum : ([[⟨0, 0⟩, ⟨10, 0⟩], [⟨11, 0⟩, ⟨20, 0⟩]] : List PPath).enum =
      [(0, [⟨0, 0⟩, ⟨10, 0⟩]), (1, [⟨11, 0⟩, ⟨20, 0⟩])] := rfl
  have hF1 : findMergeCandidate [[⟨0, 0⟩, ⟨10, 0⟩], [⟨11, 0⟩, ⟨20, 0⟩]]
      (insert 0 ∅) [⟨0, 0⟩, ⟨10, 0⟩] 5 = some (1, [⟨0, 0⟩, ⟨10, 0⟩, ⟨11, 0⟩, ⟨20, 0⟩]) := by
    unfold findMergeCandidate
    rw [henum]
    simp [List.findSome?_cons, tryMerge_eval]
  have hF2 : findMergeCandidate [[⟨0, 0⟩, ⟨10, 0⟩], [⟨11, 0⟩, ⟨20, 0⟩]]
      (insert 1 (insert 0 ∅)) [⟨0, 0⟩, ⟨10, 0⟩, ⟨11, 0⟩, ⟨20, 0⟩] 5 = none := by
    unfold findMergeCandidate
    rw [henum]
    simp [List.findSome?_cons]
  have hLoop : mergeLoop [[⟨0, 0⟩, ⟨10, 0⟩], [⟨11, 0⟩, ⟨20, 0⟩]] 5
      (([[⟨0, 0⟩, ⟨10, 0⟩], [⟨11, 0⟩, ⟨20, 0⟩]] : List PPath).length + 1)
      [⟨0, 0⟩, ⟨10, 0⟩] (insert 0 ∅) =
      ([⟨0, 0⟩, ⟨10, 0⟩, ⟨11, 0⟩, ⟨20, 0⟩], insert 1 (insert 0 ∅)) := by
    rw [mergeLoop_succ, hF1]
    show mergeLoop _ 5 (1 + 1) _ _ = _
    rw [mergeLoop_succ, hF2]
  unfold mergePaths
  rw [if_neg (by norm_num)]
  rw [henum]
  rw [mergeOuter_cons]
  rw [if_neg (by simp)]
  rw [hLoop]
  rw [if_pos (by norm_num)]
  rw [mergeOuter_cons]
  rw [if_pos (by simp)]
  rfl

end PathOptimizer

namespace VectorizationEngine

/-- VectorizationEngine.perpendicularDistance: distance from a point to
the infinite line through lineStart and lineEnd via |Ax+By+C|/sqrt(A*A+B*B)
with A = lineEnd.y - lineStart.y, B = lineStart.x - lineEnd.x and
C = lineEnd.x * lineStart.y - lineStart.x * lineEnd.y.  For a degenerate
chord the source divides 0 by 0 (NaN, comparing false against the running
maximum); the real-number model yields 0, which compares the same way
against the nonnegative running maximum. -/
def perpendicularDistance (point lineStart lineEnd : Pt) : ℝ :=
  |(lineEnd.y - lineStart.y) * point.x + (lineStart.x - lineEnd.x) * point.y +
      (lineEnd.x * lineStart.y - lineStart.x * lineEnd.y)| /
    Real.sqrt ((lineEnd.y - lineStart.y) * (lineEnd.y - lineStart.y) +
      (lineStart.x - lineEnd.x) * (lineStart.x - lineEnd.x))

/-- One step of the maxDistance/maxIndex scan of douglasPeucker: update on
a strictly larger distance. -/
def dpScanFold (p0 pe : Pt) (acc : ℝ × ℕ) (ipt : ℕ × Pt) : ℝ × ℕ :=
  if perpendicularDistance ipt.2 p0 pe > acc.1 then
    (perpendicularDistance ipt.2 p0 pe, ipt.1) else acc

/-- The interior scan of douglasPeucker: the maximum perpendicular distance
to the chord over indices 1 to length-2, with the first index attaining
it (both 0 when no distance exceeds 0). -/
def dpScan (points : List Pt) : ℝ × ℕ :=
  ((List.range' 1 (points.length - 2)).map fun i => (i, points.getD i default)).foldl
    (dpScanFold (points.getD 0 default) (points.getD (points.length - 1) default)) (0, 0)

/-- VectorizationEngine.douglasPeucker with an explicit recursion-depth
fuel; none models the source recursing deeper than the fuel (which happens
only for negative tolerances, where the source overflows the stack).  For
inputs of more than two points whose scan maximum exceeds epsilon, recurse
on the two halves around the maximum index and splice; otherwise keep the
two endpoints.  Inputs of at most two points return verbatim. -/
def dpF : ℕ → List Pt → ℝ → Option (List Pt)
  | 0, _, _ => none
  | fuel + 1, points, epsilon =>
    if points.length ≤ 2 then some points
    else
      if (dpScan points).1 > epsilon then
        match dpF fuel (points.take ((dpScan points).2 + 1)) epsilon,
            dpF fuel (points.drop (dpScan points).2) epsilon with
        | some left, some right => some (left.dropLast ++ right)
        | _, _ => none
      else some [points.getD 0 default, points.getD (points.length - 1) default]

/-- douglasPeucker with the fuel that covers every terminating run: the
recursion depth is bounded by the point count plus one, since for a
nonnegative tolerance every recursive call strictly shrinks the list. -/
def douglasPeucker (points : List Pt) (epsilon : ℝ) : Option (List Pt) :=
  dpF (points.length + 1) points epsilon

theorem perpDist_nonneg (p a b : Pt) : 0 ≤ perpendicularDistance p a b :=
  div_nonneg (abs_nonneg _) (Real.sqrt_nonneg _)

theorem perpDist_start (a b : Pt) : perpendicularDistance a a b = 0 := by
  unfold perpendicularDistance
  rw [show (b.y - a.y) * a.x + (a.x - b.x) * a.y + (b.x * a.y - a.x * b.y) = 0 by ring]
  simp

theorem perpDist_end (a b : Pt) : perpendicularDistance b a b = 0 := by
  unfold perpendicularDistance
  rw [show (b.y - a.y) * b.x + (a.x - b.x) * b.y + (b.x * a.y - a.x * b.y) = 0 by ring]
  simp

theorem dpScanFold_apply (p0 pe : Pt) (acc : ℝ × ℕ) (ipt : ℕ × Pt) :
    dpScanFold p0 pe acc ipt =
      if perpendicularDistance ipt.2 p0 pe > acc.1 then
        (perpendicularDistance ipt.2 p0 pe, ipt.1) else acc := rfl

theorem dpScanFold_spec (p0 pe : Pt) :
    ∀ (L : List (ℕ × Pt)) (acc : ℝ × ℕ),
      acc.1 ≤ (L.foldl (dpScanFold p0 pe) acc).1 ∧
      (∀ ip ∈ L, perpendicularDistance ip.2 p0 pe ≤ (L.foldl (dpScanFold p0 pe) acc).1) ∧
      ((L.foldl (dpScanFold p0 pe) acc) = acc ∨
        ∃ L1 ip L2, L = L1 ++ ip :: L2 ∧
          (L.foldl (dpScanFold p0 pe) acc) = (perpendicularDistance ip.2 p0 pe, ip.1) ∧
          acc.1 < perpendicularDistance ip.2 p0 pe ∧
          ∀ jq ∈ L1, perpendicularDistance jq.2 p0 pe < (L.foldl (dpScanFold p0 pe) acc).1)
  | [], acc => by
    refine ⟨le_refl _, ?_, Or.inl rfl⟩
    intro ip hip
    cases hip
  | x :: L, acc => by
    rw [List.foldl_cons]
    by_cases hx : perpendicularDistance x.2 p0 pe > acc.1
    · have hstep : dpScanFold p0 pe acc x = (perpendicularDistance x.2 p0 pe, x.1) := by
        unfold dpScanFold
        rw [if_pos hx]
      rw [hstep]
      obtain ⟨ih1, ih2, ih3⟩ := dpScanFold_spec p0 pe L (perpendicularDistance x.2 p0 pe, x.1)
      refine ⟨le_trans (le_of_lt hx) ih1, ?_, ?_⟩
      · intro ip hip
        rcases List.mem_cons.mp hip with hip | hip
        · rw [hip]; exact ih1
        · exact ih2 ip hip
      · rcases ih3 with heq | ⟨L1, ip, L2, hsplit, heqr, hlt, hbefore⟩
        · refine Or.inr ⟨[], x, L, rfl, heq, hx, ?_⟩
          intro jq hjq
          cases hjq
        · refine Or.inr ⟨x :: L1, ip, L2, by rw [hsplit]; rfl, heqr, lt_trans hx hlt, ?_⟩
          intro jq hjq
          rcases List.mem_cons.mp hjq with hjq | hjq
          · rw [hjq, heqr]
            exact hlt
          · exact hbefore jq hjq
    · have hstep : dpScanFold p0 pe acc x = acc := by
        unfold dpScanFold
        rw [if_neg hx]
      rw [hstep]
      obtain ⟨ih1, ih2, ih3⟩ := dpScanFold_spec p0 pe L acc
      refine ⟨ih1, ?_, ?_⟩
      · intro ip hip
        rcases List.mem_cons.mp hip with hip | hip
        · rw [hip]
          exact le_trans (le_of_not_lt hx) ih1
        · exact ih2 ip hip
      · rcases ih3 with heq | ⟨L1, ip, L2, hsplit, heqr, hlt, hbefore⟩
        · exact Or.inl heq
        · refine Or.inr ⟨x :: L1, ip, L2, by rw [hsplit]; rfl, heqr, hlt, ?_⟩
          intro jq hjq
          rcases List.mem_cons.mp hjq with hjq | hjq
          · rw [hjq, heqr]
            exact lt_of_le_of_lt (le_of_not_lt hx) hlt
          · exact hbefore jq hjq

theorem dpScanFold_no_update (p0 pe : Pt) :
    ∀ (L : List (ℕ × Pt)) (acc : ℝ × ℕ),
      (∀ ip ∈ L, perpendicularDistance ip.2 p0 pe ≤ acc.1) →
      L.foldl (dpScanFold p0 pe) acc = acc
  | [], _, _ => rfl
  | x :: L, acc, h => by
    rw [List.foldl_cons]
    have hstep : dpScanFold p0 pe acc x = acc := by
      unfold dpScanFold
      rw [if_neg (not_lt.mpr (h x (List.mem_cons_self x L)))]
    rw [hstep]
    exact dpScanFold_no_update p0 pe L acc fun ip hip => h ip (List.mem_cons_of_mem x hip)

theorem dpScanFold_pinpoint (p0 pe : Pt) (L1 : List (ℕ × Pt)) (ip : ℕ × Pt)
    (L2 : List (ℕ × Pt))
    (h1 : ∀ jq ∈ L1, perpendicularDistance jq.2 p0 pe < perpendicularDistance ip.2 p0 pe)
    (h2 : ∀ jq ∈ L2, perpendicularDistance jq.2 p0 pe ≤ perpendicularDistance ip.2 p0 pe)
    (h0 : 0 < perpendicularDistance ip.2 p0 pe) :
    (L1 ++ ip :: L2).foldl (dpScanFold p0 pe) (0, 0) =
      (perpendicularDistance ip.2 p0 pe, ip.1) := by
  rw [List.foldl_append]
  have hres1 : (L1.foldl (dpScanFold p0 pe) (0, 0)).1 < perpendicularDistance ip.2 p0 pe := by
    obtain ⟨-, -, hd⟩ := dpScanFold_spec p0 pe L1 (0, 0)
    rcases hd with heq | ⟨A, w, B, hsplit, heqr, -, -⟩
    · rw [heq]; exact h0
    · rw [heqr]
      exact h1 w (by rw [hsplit]; exact List.mem_append_right A (List.mem_cons_self w B))
  rw [List.foldl_cons]
  have hstep : dpScanFold p0 pe (L1.foldl (dpScanFold p0 pe) (0, 0)) ip =
      (perpendicularDistance ip.2 p0 pe, ip.1) := by
    rw [dpScanFold_apply, if_pos hres1]
  rw [hstep]
  exact dpScanFold_no_update p0 pe L2 _ h2

end VectorizationEngine

namespace VectorizationEngine

theorem map_split {α β : Type _} (f : α → β) :
    ∀ (l : List α) (A : List β) (x : β) (B : List β),
      l.map f = A ++ x :: B →
      ∃ A' x' B', l = A' ++ x' :: B' ∧ A = A'.map f ∧ x = f x' ∧ B = B'.map f
  | [], A, x, B, h => by
    rw [List.map_nil] at h
    exact absurd h.symm (List.append_ne_nil_of_right_ne_nil A (List.cons_ne_nil x B))
  | y :: l, A, x, B, h => by
    rw [List.map_cons] at h
    cases A with
    | nil =>
      rw [List.nil_append] at h
      injection h with h1 h2
      exact ⟨[], y, l, rfl, rfl, h1.symm, h2.symm⟩
    | cons a A' =>
      rw [List.cons_append] at h
      injection h with h1 h2
      obtain ⟨A'', x', B', hl, hA, hx, hB⟩ := map_split f l A' x B h2
      exact ⟨y :: A'', x', B', by rw [hl]; rfl, by rw [List.map_cons, h1, hA], hx, hB⟩

theorem range'_mem_left :
    ∀ (I1 : List ℕ) (a n i0 : ℕ) (I2 : List ℕ),
      List.range' a n = I1 ++ i0 :: I2 → ∀ j, a ≤ j → j < i0 → j ∈ I1
  | [], a, n, i0, I2, h, j, haj, hji => by
    cases n with
    | zero => cases h
    | succ k =>
      rw [List.range'_succ, List.nil_append] at h
      injection h with h1 h2
      omega
  | b :: I1', a, n, i0, I2, h, j, haj, hji => by
    cases n with
    | zero => cases h
    | succ k =>
      rw [List.range'_succ, List.cons_append] at h
      injection h with h1 h2
      by_cases hja : j = a
      · rw [hja, ← h1]
        exact List.mem_cons_self _ _
      · exact List.mem_cons_of_mem b
          (range'_mem_left I1' (a + 1) k i0 I2 h2 j (by omega) hji)

theorem dpScan_nonneg (points : List Pt) : 0 ≤ (dpScan points).1 :=
  (dpScanFold_spec _ _ _ (0, 0)).1

theorem dpScan_le (points : List Pt) (i : ℕ) (h1 : 1 ≤ i) (h2 : i < points.length - 1) :
    perpendicularDistance (points.getD i default) (points.getD 0 default)
      (points.getD (points.length - 1) default) ≤ (dpScan points).1 := by
  have hmem : ((i, points.getD i default) : ℕ × Pt) ∈
      (List.range' 1 (points.length - 2)).map fun k => (k, points.getD k default) :=
    List.mem_map_of_mem _ (List.mem_range'_1.mpr ⟨h1, by omega⟩)
  exact (dpScanFold_spec _ _ _ (0, 0)).2.1 _ hmem

theorem dpScan_snd_lt (points : List Pt) (h3 : 3 ≤ points.length) :
    (dpScan points).2 < points.length - 1 := by
  obtain ⟨-, -, hd⟩ := dpScanFold_spec (points.getD 0 default)
    (points.getD (points.length - 1) default)
    ((List.range' 1 (points.length - 2)).map fun k => (k, points.getD k default)) (0, 0)
  rcases hd with heq | ⟨L1, ip, L2, hsplit, heqr, -, -⟩
  · unfold dpScan
    rw [heq]
    omega
  · obtain ⟨I1, i0, I2, hl, -, hip, -⟩ := map_split _ _ L1 ip L2 hsplit
    have hi0 : i0 ∈ List.range' 1 (points.length - 2) := by
      rw [hl]
      exact List.mem_append_right I1 (List.mem_cons_self i0 I2)
    rw [List.mem_range'_1] at hi0
    unfold dpScan
    rw [heqr, hip]
    omega

theorem dpScan_pos_spec (points : List Pt) (hpos : 0 < (dpScan points).1) :
    1 ≤ (dpScan points).2 ∧ (dpScan points).2 < points.length - 1 ∧
      perpendicularDistance (points.getD (dpScan points).2 default)
        (points.getD 0 default) (points.getD (points.length - 1) default) =
        (dpScan points).1 ∧
      ∀ j, 1 ≤ j → j < (dpScan points).2 →
        perpendicularDistance (points.getD j default) (points.getD 0 default)
          (points.getD (points.length - 1) default) < (dpScan points).1 := by
  obtain ⟨-, -, hd⟩ := dpScanFold_spec (points.getD 0 default)
    (points.getD (points.length - 1) default)
    ((List.range' 1 (points.length - 2)).map fun k => (k, points.getD k default)) (0, 0)
  rcases hd with heq | ⟨L1, ip, L2, hsplit, heqr, -, hbefore⟩
  · unfold dpScan at hpos
    rw [heq] at hpos
    norm_num at hpos
  · obtain ⟨I1, i0, I2, hl, hL1, hip, -⟩ := map_split _ _ L1 ip L2 hsplit
    have hi0 : i0 ∈ List.range' 1 (points.length - 2) := by
      rw [hl]
      exact List.mem_append_right I1 (List.mem_cons_self i0 I2)
    rw [List.mem_range'_1] at hi0
    have hsnd : (dpScan points).2 = i0 := by
      unfold dpScan
      rw [heqr, hip]
    have hfst : (dpScan points).1 =
        perpendicularDistance (points.getD i0 default) (points.getD 0 default)
          (points.getD (points.length - 1) default) := by
      unfold dpScan
      rw [heqr, hip]
    refine ⟨by omega, by omega, ?_, ?_⟩
    · rw [hsnd, ← hfst]
    · intro j hj1 hj2
      have hjmem : j ∈ I1 := range'_mem_left I1 1 (points.length - 2) i0 I2 hl j hj1
        (by omega)
      have : ((j, points.getD j default) : ℕ × Pt) ∈ L1 := by
        rw [hL1]
        exact List.mem_map_of_mem _ hjmem
      have := hbefore _ this
      unfold dpScan
      exact this

end VectorizationEngine

namespace VectorizationEngine

theorem head?_dropLast {α : Type _} (l : List α) (h : 2 ≤ l.length) :
    l.dropLast.head? = l.head? := by
  match l, h with
  | a :: b :: t, _ => rw [List.dropLast_cons₂, List.head?_cons, List.head?_cons]

theorem head?_take_succ {α : Type _} (l : List α) (k : ℕ) (h : l ≠ []) :
    (l.take (k + 1)).head? = l.head? := by
  cases l with
  | nil => exact absurd rfl h
  | cons a t => rw [List.take_succ_cons, List.head?_cons, List.head?_cons]

theorem getLast?_append_right {α : Type _} (l₁ l₂ : List α) (h : l₂ ≠ []) :
    (l₁ ++ l₂).getLast? = l₂.getLast? := by
  have h2 : 0 < l₂.length := List.length_pos.mpr h
  rw [List.getLast?_eq_getElem?, List.getLast?_eq_getElem?, List.length_append,
    List.getElem?_append_right (by omega)]
  congr 1
  omega

theorem getLast?_drop {α : Type _} (l : List α) (k : ℕ) (h : k < l.length) :
    (l.drop k).getLast? = l.getLast? := by
  rw [List.getLast?_eq_getElem?, List.getLast?_eq_getElem?, List.getElem?_drop,
    List.length_drop]
  congr 1
  omega

theorem getLast?_take_succ {α : Type _} [Inhabited α] (l : List α) (k : ℕ)
    (h : k < l.length) :
    (l.take (k + 1)).getLast? = some (l.getD k default) := by
  rw [List.getLast?_eq_getElem?, List.length_take]
  have hmin : min (k + 1) l.length - 1 = k := by omega
  rw [hmin, List.getElem?_take, if_pos (by omega), List.getD_eq_getElem?_getD,
    List.getElem?_eq_getElem h]
  rfl

theorem dropLast_sublist_take {α : Type _} (left l : List α) (k : ℕ) (h : k < l.length)
    (hs : left.Sublist (l.take (k + 1))) : left.dropLast.Sublist (l.take k) := by
  rw [List.take_succ, List.getElem?_eq_getElem h] at hs
  rcases List.sublist_append_iff.mp hs with ⟨u, v, heq, hu, hv⟩
  have hv2 := List.sublist_singleton.mp (by simpa using hv)
  rcases hv2 with hv2 | hv2
  · rw [heq, hv2, List.append_nil]
    exact List.Sublist.trans (List.dropLast_sublist u) hu
  · rw [heq, hv2, List.dropLast_concat]
    exact hu

theorem head?_getD {α : Type _} [Inhabited α] (l : List α) (h : l ≠ []) :
    l.head? = some (l.getD 0 default) := by
  cases l with
  | nil => exact absurd rfl h
  | cons a t => rfl

theorem getLast?_getD {α : Type _} [Inhabited α] (l : List α) (h : l ≠ []) :
    l.getLast? = some (l.getD (l.length - 1) default) := by
  rw [List.getLast?_eq_getElem?, List.getD_eq_getElem?_getD]
  have hlen : 0 < l.length := List.length_pos.mpr h
  rw [List.getElem?_eq_getElem (by omega : l.length - 1 < l.length)]
  rfl

theorem two_endpoints_sublist {α : Type _} [Inhabited α] (l : List α) (h : 2 ≤ l.length) :
    ([l.getD 0 default, l.getD (l.length - 1) default] : List α).Sublist l := by
  cases l with
  | nil => simp at h
  | cons a t =>
    have ht : t ≠ [] := by
      intro hnil
      rw [hnil] at h
      simp at h
    have htpos : 0 < t.length := List.length_pos.mpr ht
    have hlen : (a :: t).length - 1 = (t.length - 1) + 1 := by
      simp [List.length_cons]
      omega
    rw [hlen]
    show ([a, t.getD (t.length - 1) default] : List α).Sublist (a :: t)
    refine List.Sublist.cons₂ a ?_
    rw [List.singleton_sublist]
    rw [List.getD_eq_getElem t default (by omega : t.length - 1 < t.length)]
    exact List.getElem_mem _

end VectorizationEngine

namespace VectorizationEngine

theorem head?_append_left {α : Type _} (l₁ l₂ : List α) (h : l₁ ≠ []) :
    (l₁ ++ l₂).head? = l₁.head? := by
  cases l₁ with
  | nil => exact absurd rfl h
  | cons a t => rfl

/-- Structural facts about every value returned by the fueled
douglasPeucker recursion: the result is a sublist of the input, keeps the
first and last point, has at least two points when the input does, and
inputs of at most two points come back verbatim. -/
theorem dpF_shape :
    ∀ (fuel : ℕ) (points : List Pt) (epsilon : ℝ) (res : List Pt),
      dpF fuel points epsilon = some res →
        res.Sublist points ∧ res.head? = points.head? ∧ res.getLast? = points.getLast? ∧
        (2 ≤ points.length → 2 ≤ res.length) ∧ (points.length ≤ 2 → res = points)
  | 0, points, epsilon, res, h => by cases h
  | fuel + 1, points, epsilon, res, h => by
    rw [dpF] at h
    by_cases hlen : points.length ≤ 2
    · rw [if_pos hlen] at h
      injection h with h
      subst h
      exact ⟨List.Sublist.refl _, rfl, rfl, fun h2 => h2, fun _ => rfl⟩
    · rw [if_neg hlen] at h
      have h3 : 3 ≤ points.length := by omega
      have hne : points ≠ [] := by
        intro hp
        rw [hp] at h3
        simp at h3
      by_cases hsc : (dpScan points).1 > epsilon
      · rw [if_pos hsc] at h
        have hmilt : (dpScan points).2 < points.length - 1 := dpScan_snd_lt points h3
        cases hL : dpF fuel (points.take ((dpScan points).2 + 1)) epsilon with
        | none =>
          rw [hL] at h
          cases hR : dpF fuel (points.drop (dpScan points).2) epsilon with
          | none => rw [hR] at h; simp at h
          | some right => rw [hR] at h; simp at h
        | some left =>
          rw [hL] at h
          cases hR : dpF fuel (points.drop (dpScan points).2) epsilon with
          | none => rw [hR] at h; simp at h
          | some right =>
            rw [hR] at h
            simp only at h
            injection h with h
            obtain ⟨hsubL, hheadL, hlastL, hlenL, hsmallL⟩ :=
              dpF_shape fuel (points.take ((dpScan points).2 + 1)) epsilon left hL
            obtain ⟨hsubR, hheadR, hlastR, hlenR, hsmallR⟩ :=
              dpF_shape fuel (points.drop (dpScan points).2) epsilon right hR
            have htakelen : (points.take ((dpScan points).2 + 1)).length =
                (dpScan points).2 + 1 := by
              rw [List.length_take]
              omega
            have hdroplen : (points.drop (dpScan points).2).length =
                points.length - (dpScan points).2 := List.length_drop _ _
            have hRlen : 2 ≤ right.length := by
              apply hlenR
              omega
            have hRne : right ≠ [] := by
              intro hr
              rw [hr] at hRlen
              simp at hRlen
            subst h
            refine ⟨?_, ?_, ?_, ?_, ?_⟩
            · have h1 : left.dropLast.Sublist (points.take (dpScan points).2) :=
                dropLast_sublist_take left points (dpScan points).2 (by omega) hsubL
              have happ := List.Sublist.append h1 hsubR
              rw [List.take_append_drop] at happ
              exact happ
            · by_cases hmi0 : (dpScan points).2 = 0
              · have hsmall := hsmallL (by rw [htakelen]; omega)
                have hA : left.dropLast = [] := by
                  rw [hsmall, hmi0]
                  cases points with
                  | nil => rfl
                  | cons a t => rfl
                rw [hA, List.nil_append, hheadR, hmi0, List.drop_zero]
              · have hLlen : 2 ≤ left.length := by
                  apply hlenL
                  omega
                have hAne : left.dropLast ≠ [] := by
                  intro ha
                  have := congrArg List.length ha
                  rw [List.length_dropLast] at this
                  simp at this
                  omega
                rw [head?_append_left _ _ hAne, head?_dropLast left hLlen, hheadL,
                  head?_take_succ points _ hne]
            · rw [getLast?_append_right _ _ hRne, hlastR, getLast?_drop points _ (by omega)]
            · intro _
              rw [List.length_append]
              omega
            · intro hc
              exact absurd hc hlen
      · rw [if_neg hsc] at h
        injection h with h
        subst h
        refine ⟨two_endpoints_sublist points (by omega), ?_, ?_, ?_, ?_⟩
        · rw [head?_getD points hne]
          rfl
        · rw [getLast?_getD points hne]
          rfl
        · intro _
          simp
        · intro hc
          exact absurd hc hlen

end VectorizationEngine

namespace VectorizationEngine

theorem range'_split :
    ∀ (n a k : ℕ), a ≤ k → k < a + n →
      List.range' a n = List.range' a (k - a) ++ k :: List.range' (k + 1) (a + n - k - 1)
  | 0, a, k, h1, h2 => by omega
  | n + 1, a, k, h1, h2 => by
    by_cases hk : k = a
    · subst hk
      rw [List.range'_succ]
      simp
    · have hrec := range'_split n (a + 1) k (by omega) (by omega)
      rw [List.range'_succ, hrec]
      have hka : k - a = (k - (a + 1)) + 1 := by omega
      rw [hka, List.range'_succ]
      have : a + 1 + n - k - 1 = a + (n + 1) - k - 1 := by omega
      rw [this]
      rfl

theorem head?_some_getD {α : Type _} [Inhabited α] (l : List α) (x : α)
    (h : l.head? = some x) : l.getD 0 default = x := by
  cases l with
  | nil => cases h
  | cons a t =>
    rw [List.head?_cons] at h
    injection h with h

theorem getLast?_some_getD {α : Type _} [Inhabited α] (l : List α) (x : α)
    (h : l.getLast? = some x) : l.getD (l.length - 1) default = x := by
  have hne : l ≠ [] := by
    intro hl
    rw [hl] at h
    cases h
  rw [getLast?_getD l hne] at h
  injection h with h

theorem mem_getD_self {α : Type _} [Inhabited α] (l : List α) (i : ℕ) (h : i < l.length) :
    l.getD i default ∈ l := by
  rw [List.getD_eq_getElem l default h]
  exact List.getElem_mem _

theorem dropLast_append_getLast?_eq {α : Type _} (l : List α) (x : α)
    (h : l.getLast? = some x) : l.dropLast ++ [x] = l := by
  have hne : l ≠ [] := by
    intro hl
    rw [hl] at h
    cases h
  rw [List.getLast?_eq_getLast l hne] at h
  injection h with h
  rw [← h]
  exact List.dropLast_append_getLast hne

end VectorizationEngine

namespace VectorizationEngine

theorem getD_append_left {α : Type _} [Inhabited α] (l₁ l₂ : List α) (i : ℕ)
    (h : i < l₁.length) : (l₁ ++ l₂).getD i default = l₁.getD i default := by
  rw [List.getD_eq_getElem?_getD, List.getD_eq_getElem?_getD, List.getElem?_append,
    if_pos h]

theorem getD_append_right_self {α : Type _} [Inhabited α] (l₁ l₂ : List α) (k : ℕ)
    (h : k < l₂.length) :
    (l₁ ++ l₂).getD (l₁.length + k) default = l₂.getD k default := by
  rw [List.getD_eq_getElem?_getD, List.getD_eq_getElem?_getD,
    List.getElem?_append_right (by omega : l₁.length ≤ l₁.length + k)]
  have hk : l₁.length + k - l₁.length = k := by omega
  rw [hk]

theorem take_append_len_add {α : Type _} :
    ∀ (l₁ l₂ : List α) (k : ℕ), (l₁ ++ l₂).take (l₁.length + k) = l₁ ++ l₂.take k
  | [], l₂, k => by rw [List.nil_append, List.length_nil, Nat.zero_add, List.nil_append]
  | a :: t, l₂, k => by
    rw [List.cons_append, List.length_cons]
    rw [show t.length + 1 + k = (t.length + k) + 1 from by omega]
    rw [List.take_succ_cons, take_append_len_add t l₂ k, List.cons_append]

/-- Core idempotence of the fueled douglasPeucker recursion: for a
nonnegative tolerance, feeding a successful output back in (with any
sufficient fuel) reproduces it unchanged.  The length bound n drives the
induction. -/
theorem dpF_idem (epsilon : ℝ) (he : 0 ≤ epsilon) :
    ∀ (n : ℕ) (points : List Pt) (fuel1 fuel2 : ℕ) (res : List Pt),
      points.length ≤ n → res.length < fuel2 →
      dpF fuel1 points epsilon = some res → dpF fuel2 res epsilon = some res := by
  intro n
  induction n with
  | zero =>
    intro points fuel1 fuel2 res hn hf2 h
    have hpts : points = [] := List.length_eq_zero.mp (by omega)
    subst hpts
    cases fuel1 with
    | zero => cases h
    | succ f1 =>
      rw [dpF, if_pos (by simp)] at h
      injection h with h
      subst h
      cases fuel2 with
      | zero => exact absurd hf2 (by omega)
      | succ f2 => rw [dpF, if_pos (by simp)]
  | succ n ih =>
    intro points fuel1 fuel2 res hn hf2 h
    cases fuel1 with
    | zero => cases h
    | succ f1 =>
      rw [dpF] at h
      by_cases hlen : points.length ≤ 2
      · rw [if_pos hlen] at h
        injection h with h
        subst h
        cases fuel2 with
        | zero => exact absurd hf2 (by omega)
        | succ f2 => rw [dpF, if_pos hlen]
      · rw [if_neg hlen] at h
        have h3 : 3 ≤ points.length := by omega
        have hne : points ≠ [] := by
          intro hp
          rw [hp] at h3
          simp at h3
        by_cases hsc : (dpScan points).1 > epsilon
        · rw [if_pos hsc] at h
          have hpos : 0 < (dpScan points).1 := lt_of_le_of_lt he hsc
          obtain ⟨hmi1, hmilt, hdeq, hearlier⟩ := dpScan_pos_spec points hpos
          cases hL : dpF f1 (points.take ((dpScan points).2 + 1)) epsilon with
          | none =>
            rw [hL] at h
            cases hR : dpF f1 (points.drop (dpScan points).2) epsilon with
            | none => rw [hR] at h; simp at h
            | some right => rw [hR] at h; simp at h
          | some left =>
            rw [hL] at h
            cases hR : dpF f1 (points.drop (dpScan points).2) epsilon with
            | none => rw [hR] at h; simp at h
            | some right =>
              rw [hR] at h
              simp only at h
              injection h with h
              subst h
              obtain ⟨hsubL, hheadL, hlastL, hlenL, hsmallL⟩ :=
                dpF_shape f1 (points.take ((dpScan points).2 + 1)) epsilon left hL
              obtain ⟨hsubR, hheadR, hlastR, hlenR, hsmallR⟩ :=
                dpF_shape f1 (points.drop (dpScan points).2) epsilon right hR
              have htakelen : (points.take ((dpScan points).2 + 1)).length =
                  (dpScan points).2 + 1 := by
                rw [List.length_take]
                omega
              have hdroplen : (points.drop (dpScan points).2).length =
                  points.length - (dpScan points).2 := List.length_drop _ _
              have hLlen : 2 ≤ left.length := hlenL (by rw [htakelen]; omega)
              have hRlen : 2 ≤ right.length := hlenR (by rw [hdroplen]; omega)
              have hAlen : left.dropLast.length = left.length - 1 := List.length_dropLast left
              have hAne : left.dropLast ≠ [] := by
                intro ha
                have hc := congrArg List.length ha
                rw [hAlen] at hc
                simp at hc
                omega
              have hRne : right ≠ [] := by
                intro hr
                rw [hr] at hRlen
                simp at hRlen
              have hdropne : points.drop (dpScan points).2 ≠ [] := by
                intro hd
                have hc := congrArg List.length hd
                rw [hdroplen] at hc
                simp at hc
                omega
              -- last point of left and first point of right are the winner
              have hlastLeft : left.getLast? = some (points.getD (dpScan points).2 default) := by
                rw [hlastL, getLast?_take_succ points _ (by omega)]
              have hdropget : (points.drop (dpScan points).2).getD 0 default =
                  points.getD (dpScan points).2 default := by
                rw [List.getD_eq_getElem?_getD, List.getD_eq_getElem?_getD,
                  List.getElem?_drop, Nat.add_zero]
              have hheadRight : right.head? = some (points.getD (dpScan points).2 default) := by
                rw [hheadR, head?_getD _ hdropne, hdropget]
              have hr0 : right.getD 0 default = points.getD (dpScan points).2 default :=
                head?_some_getD right _ hheadRight
              -- the chord of the output equals the chord of the input
              have hqhead : (left.dropLast ++ right).head? = points.head? := by
                rw [head?_append_left _ _ hAne, head?_dropLast left hLlen, hheadL,
                  head?_take_succ points _ hne]
              have hqlast : (left.dropLast ++ right).getLast? = points.getLast? := by
                rw [getLast?_append_right _ _ hRne, hlastR, getLast?_drop points _ (by omega)]
              have hq0 : (left.dropLast ++ right).getD 0 default =
                  points.getD 0 default := by
                apply head?_some_getD
                rw [hqhead, head?_getD points hne]
              have hqe : (left.dropLast ++ right).getD
                  ((left.dropLast ++ right).length - 1) default =
                  points.getD (points.length - 1) default := by
                apply getLast?_some_getD
                rw [hqlast, getLast?_getD points hne]
              have hqmid : (left.dropLast ++ right).getD left.dropLast.length default =
                  points.getD (dpScan points).2 default := by
                have h1 := getD_append_right_self left.dropLast right 0 (by omega)
                rw [Nat.add_zero] at h1
                rw [h1, hr0]
              -- distance bounds on the two halves
              have hsubA : left.dropLast.Sublist (points.take (dpScan points).2) :=
                dropLast_sublist_take left points (dpScan points).2 (by omega) hsubL
              have hdA : ∀ x ∈ left.dropLast,
                  perpendicularDistance x (points.getD 0 default)
                    (points.getD (points.length - 1) default) < (dpScan points).1 := by
                intro x hx
                have hxtake : x ∈ points.take (dpScan points).2 := hsubA.subset hx
                obtain ⟨i, hi, hgetEq⟩ := List.getElem_of_mem hxtake
                rw [List.length_take] at hi
                have hilt : i < (dpScan points).2 := by omega
                have hpe : (points.take (dpScan points).2)[i]? = some x := by
                  rw [List.getElem?_eq_getElem (by rw [List.length_take]; omega), hgetEq]
                rw [List.getElem?_take, if_pos hilt] at hpe
                have hx2 : points.getD i default = x := by
                  rw [List.getD_eq_getElem?_getD, hpe]
                  rfl
                rcases Nat.eq_zero_or_pos i with hi0 | hi1
                · subst hi0
                  rw [← hx2, perpDist_start]
                  exact hpos
                · rw [← hx2]
                  exact hearlier i hi1 hilt
              have hdR : ∀ x ∈ right,
                  perpendicularDistance x (points.getD 0 default)
                    (points.getD (points.length - 1) default) ≤ (dpScan points).1 := by
                intro x hx
                have hxdrop : x ∈ points.drop (dpScan points).2 := hsubR.subset hx
                obtain ⟨k, hk, hgetEq⟩ := List.getElem_of_mem hxdrop
                have hklen : (dpScan points).2 + k < points.length := by
                  rw [List.length_drop] at hk
                  omega
                have hpe : (points.drop (dpScan points).2)[k]? = some x := by
                  rw [List.getElem?_eq_getElem hk, hgetEq]
                rw [List.getElem?_drop] at hpe
                have hx2 : points.getD ((dpScan points).2 + k) default = x := by
                  rw [List.getD_eq_getElem?_getD, hpe]
                  rfl
                by_cases hlastc : (dpScan points).2 + k = points.length - 1
                · rw [← hx2, hlastc, perpDist_end]
                  exact le_of_lt hpos
                · by_cases hk0 : k = 0
                  · subst hk0
                    rw [← hx2, Nat.add_zero, hdeq]
                  · rw [← hx2]
                    exact dpScan_le points ((dpScan points).2 + k) (by omega) (by omega)
              -- re-scanning the output finds the same maximum at the seam
              have hql : (left.dropLast ++ right).length =
                  left.dropLast.length + right.length := List.length_append _ _
              have hsplitrange := range'_split ((left.dropLast ++ right).length - 2) 1
                left.dropLast.length (by omega) (by omega)
              have hh1 : ∀ jq ∈ (List.range' 1 (left.dropLast.length - 1)).map
                  (fun i => (i, (left.dropLast ++ right).getD i default)),
                  perpendicularDistance jq.2 (points.getD 0 default)
                    (points.getD (points.length - 1) default) <
                  perpendicularDistance (points.getD (dpScan points).2 default)
                    (points.getD 0 default) (points.getD (points.length - 1) default) := by
                intro jq hjq
                rw [List.mem_map] at hjq
                obtain ⟨i, hi, rfl⟩ := hjq
                dsimp only
                rw [List.mem_range'_1] at hi
                have hipos : i < left.dropLast.length := by omega
                rw [hdeq, getD_append_left left.dropLast right i hipos]
                exact hdA _ (mem_getD_self _ _ hipos)
              have hh2 : ∀ jq ∈ (List.range' (left.dropLast.length + 1)
                  (1 + ((left.dropLast ++ right).length - 2) - left.dropLast.length - 1)).map
                  (fun i => (i, (left.dropLast ++ right).getD i default)),
                  perpendicularDistance jq.2 (points.getD 0 default)
                    (points.getD (points.length - 1) default) ≤
                  perpendicularDistance (points.getD (dpScan points).2 default)
                    (points.getD 0 default) (points.getD (points.length - 1) default) := by
                intro jq hjq
                rw [List.mem_map] at hjq
                obtain ⟨i, hi, rfl⟩ := hjq
                dsimp only
                rw [List.mem_range'_1] at hi
                have hile : left.dropLast.length ≤ i := by omega
                have hiright : i - left.dropLast.length < right.length := by omega
                have hgR : (left.dropLast ++ right).getD i default =
                    right.getD (i - left.dropLast.length) default := by
                  have h2 := getD_append_right_self left.dropLast right
                    (i - left.dropLast.length) hiright
                  rw [show left.dropLast.length + (i - left.dropLast.length) = i from
                    by omega] at h2
                  exact h2
                rw [hdeq, hgR]
                exact hdR _ (mem_getD_self _ _ hiright)
              have hh0 : 0 < perpendicularDistance (points.getD (dpScan points).2 default)
                  (points.getD 0 default) (points.getD (points.length - 1) default) := by
                rw [hdeq]
                exact hpos
              have hscan_q : dpScan (left.dropLast ++ right) =
                  ((dpScan points).1, left.dropLast.length) := by
                show ((List.range' 1 ((left.dropLast ++ right).length - 2)).map fun i =>
                    (i, (left.dropLast ++ right).getD i default)).foldl
                    (dpScanFold ((left.dropLast ++ right).getD 0 default)
                      ((left.dropLast ++ right).getD
                        ((left.dropLast ++ right).length - 1) default))
                    (0, 0) = ((dpScan points).1, left.dropLast.length)
                rw [hq0, hqe, hsplitrange]
                simp only [List.map_append, List.map_cons]
                rw [hqmid]
                rw [dpScanFold_pinpoint (points.getD 0 default)
                  (points.getD (points.length - 1) default) _
                  (left.dropLast.length, points.getD (dpScan points).2 default) _ hh1 hh2 hh0]
                dsimp only
                rw [hdeq]
              -- splitting the output at the seam recovers left and right
              have htake1 : right.take 1 = [points.getD (dpScan points).2 default] := by
                cases right with
                | nil => exact absurd rfl hRne
                | cons r0 rt =>
                  rw [List.take_succ_cons, List.take_zero]
                  rw [List.head?_cons] at hheadRight
                  injection hheadRight with hh
                  rw [hh]
              have htakeq : (left.dropLast ++ right).take (left.dropLast.length + 1) = left := by
                rw [take_append_len_add, htake1, dropLast_append_getLast?_eq left _ hlastLeft]
              have hdropq : (left.dropLast ++ right).drop left.dropLast.length = right :=
                List.drop_left _ _
              -- assemble the second run
              cases fuel2 with
              | zero => exact absurd hf2 (by omega)
              | succ f2 =>
                rw [List.length_append, hAlen] at hf2
                have hidemL : dpF f2 left epsilon = some left := by
                  apply ih (points.take ((dpScan points).2 + 1)) f1 f2 left ?_ ?_ hL
                  · rw [htakelen]
                    omega
                  · omega
                have hidemR : dpF f2 right epsilon = some right := by
                  apply ih (points.drop (dpScan points).2) f1 f2 right ?_ ?_ hR
                  · rw [hdroplen]
                    omega
                  · omega
                rw [dpF, hscan_q]
                dsimp only
                rw [if_neg (show ¬ (left.dropLast ++ right).length ≤ 2 from by
                  rw [List.length_append, hAlen]; omega)]
                rw [if_pos hsc, htakeq, hdropq, hidemL, hidemR]
        · rw [if_neg hsc] at h
          injection h with h
          subst h
          cases fuel2 with
          | zero => exact absurd hf2 (by omega)
          | succ f2 => rw [dpF, if_pos (by simp)]

end VectorizationEngine

namespace VectorizationEngine

/-- C4: the Douglas-Peucker simplification used by the Centerline tracer is
idempotent for every nonnegative tolerance: applying douglasPeucker to its
own output (for any input polyline) returns that output unchanged: the
second run rediscovers the same maximum-distance split point at the seam
of the first run's splice.  (dpF models the source recursion with explicit depth
fuel; douglasPeucker supplies the fuel that covers every terminating run.) -/
theorem douglasPeucker_idem (points : List Pt) (epsilon : ℝ) (res : List Pt)
    (he : 0 ≤ epsilon) (h : douglasPeucker points epsilon = some res) :
    douglasPeucker res epsilon = some res := by
  unfold douglasPeucker at h ⊢
  exact dpF_idem epsilon he points.length points (points.length + 1) (res.length + 1) res
    le_rfl (by omega) h

/-- Witness for C4 at the concrete polyline [(0,0),(1,0)] with tolerance 1:
both hypotheses hold and the conclusion is reproduced. -/
theorem douglasPeucker_idem_witness :
    (0 : ℝ) ≤ 1 ∧ douglasPeucker [Pt.mk 0 0, Pt.mk 1 0] 1 = some [Pt.mk 0 0, Pt.mk 1 0] ∧
      douglasPeucker [Pt.mk 0 0, Pt.mk 1 0] 1 = some [Pt.mk 0 0, Pt.mk 1 0] :=
  ⟨by norm_num, rfl,
    douglasPeucker_idem [Pt.mk 0 0, Pt.mk 1 0] 1 [Pt.mk 0 0, Pt.mk 1 0] (by norm_num) rfl⟩

end VectorizationEngine

namespace CurveFitter

/-- BezierCurve from curve-fitting.ts; end is written end' as end is a
keyword. -/
structure BezierCurve where
  start : Pt
  control1 : Pt
  control2 : Pt
  end' : Pt

/-- Arc from curve-fitting.ts; the clockwise flag is carried as the
proposition the source's boolean tests. -/
structure Arc where
  start : Pt
  end' : Pt
  center : Pt
  radius : ℝ
  clockwise : Prop

/-- CurveSegment = BezierCurve | Arc. -/
inductive CurveSegment where
  | bezier (b : BezierCurve)
  | arc (a : Arc)

/-- CurveFitter.distance. -/
def distance (p1 p2 : Pt) : ℝ :=
  Real.sqrt ((p2.x - p1.x) * (p2.x - p1.x) + (p2.y - p1.y) * (p2.y - p1.y))

/-- CurveFitter.evaluateBezier: cubic Bernstein evaluation at t. -/
def evaluateBezier (curve : BezierCurve) (t : ℝ) : Pt :=
  ⟨(1 - t) * (1 - t) * (1 - t) * curve.start.x +
      3 * ((1 - t) * (1 - t)) * t * curve.control1.x +
      3 * (1 - t) * (t * t) * curve.control2.x + t * t * t * curve.end'.x,
    (1 - t) * (1 - t) * (1 - t) * curve.start.y +
      3 * ((1 - t) * (1 - t)) * t * curve.control1.y +
      3 * (1 - t) * (t * t) * curve.control2.y + t * t * t * curve.end'.y⟩

/-- The 11 uniform samples t = i/10, i = 0..10, drawn by
tryConvertBezierToArc. -/
def samplePoints (bezier : BezierCurve) : List Pt :=
  (List.range 11).map fun i => evaluateBezier bezier ((i : ℝ) / 10)

/-- Accumulated sums of the algebraic circle fit in fitCircleToPoints. -/
def sumX (points : List Pt) : ℝ := points.foldl (fun s p => s + p.x) 0

def sumY (points : List Pt) : ℝ := points.foldl (fun s p => s + p.y) 0

def sumX2 (points : List Pt) : ℝ := points.foldl (fun s p => s + p.x * p.x) 0

def sumY2 (points : List Pt) : ℝ := points.foldl (fun s p => s + p.y * p.y) 0

def sumXY (points : List Pt) : ℝ := points.foldl (fun s p => s + p.x * p.y) 0

def sumX3 (points : List Pt) : ℝ := points.foldl (fun s p => s + p.x * p.x * p.x) 0

def sumY3 (points : List Pt) : ℝ := points.foldl (fun s p => s + p.y * p.y * p.y) 0

def sumX2Y (points : List Pt) : ℝ := points.foldl (fun s p => s + p.x * p.x * p.y) 0

def sumXY2 (points : List Pt) : ℝ := points.foldl (fun s p => s + p.x * p.y * p.y) 0

/-- The normal-equation coefficients A, B, C, D, E and determinant of
fitCircleToPoints. -/
def circleA (points : List Pt) : ℝ :=
  points.length * sumX2 points - sumX points * sumX points

def circleB (points : List Pt) : ℝ :=
  points.length * sumXY points - sumX points * sumY points

def circleC (points : List Pt) : ℝ :=
  points.length * sumY2 points - sumY points * sumY points

def circleD (points : List Pt) : ℝ :=
  (1 / 2) * (points.length * sumX2Y points - sumX points * sumXY points +
    points.length * sumX3 points - sumX points * sumX2 points)

def circleE (points : List Pt) : ℝ :=
  (1 / 2) * (points.length * sumXY2 points - sumY points * sumXY points +
    points.length * sumY3 points - sumY points * sumY2 points)

def circleDet (points : List Pt) : ℝ :=
  circleA points * circleC points - circleB points * circleB points

def circleCenter (points : List Pt) : Pt :=
  ⟨(circleD points * circleC points - circleB points * circleE points) / circleDet points,
    (circleA points * circleE points - circleB points * circleD points) / circleDet points⟩

def circleRadius (points : List Pt) : ℝ :=
  points.foldl (fun s p => s + distance p (circleCenter points)) 0 / points.length

/-- CurveFitter.fitCircleToPoints: none on fewer than three points or a
degenerate determinant. -/
def fitCircleToPoints (points : List Pt) : Option (Pt × ℝ) :=
  if points.length < 3 then none
  else if |circleDet points| < 1 / 10 ^ 10 then none
  else some (circleCenter points, circleRadius points)

/-- Maximum over the samples of the radial deviation from the fitted
circle, as folded by tryConvertBezierToArc. -/
def maxRadialError (points : List Pt) (c : Pt) (r : ℝ) : ℝ :=
  points.foldl (fun m p => max m |distance p c - r|) 0

def bezierMid (bezier : BezierCurve) : Pt := evaluateBezier bezier (1 / 2)

/-- The 2D cross product (mid - start) x (end - start) deciding the arc
direction. -/
def bezierCross (bezier : BezierCurve) : ℝ :=
  ((bezierMid bezier).x - bezier.start.x) * (bezier.end'.y - bezier.start.y) -
    ((bezierMid bezier).y - bezier.start.y) * (bezier.end'.x - bezier.start.x)

/-- CurveFitter.tryConvertBezierToArc. -/
def tryConvertBezierToArc (bezier : BezierCurve) (tolerance : ℝ) : Option Arc :=
  match fitCircleToPoints (samplePoints bezier) with
  | none => none
  | some c =>
    if maxRadialError (samplePoints bezier) c.1 c.2 ≤ tolerance then
      some ⟨bezier.start, bezier.end', c.1, c.2, bezierCross bezier < 0⟩
    else none

/-- CurveFitter.convertToArcs: arcs pass through; a bezier is replaced by
its arc conversion when one exists. -/
def convertToArcs (curves : List CurveSegment) (tolerance : ℝ) : List CurveSegment :=
  curves.map fun curve =>
    match curve with
    | CurveSegment.arc a => CurveSegment.arc a
    | CurveSegment.bezier b =>
      match tryConvertBezierToArc b tolerance with
      | some a => CurveSegment.arc a
      | none => CurveSegment.bezier b

end CurveFitter

namespace CurveFitter

theorem foldl_max_init_le (f : Pt → ℝ) :
    ∀ (l : List Pt) (a : ℝ), a ≤ l.foldl (fun m p => max m (f p)) a
  | [], a => le_refl a
  | p :: t, a => le_trans (le_max_left a (f p)) (foldl_max_init_le f t _)

theorem mem_le_foldl_max (f : Pt → ℝ) :
    ∀ (l : List Pt) (a : ℝ) (p : Pt), p ∈ l → f p ≤ l.foldl (fun m p => max m (f p)) a
  | [], a, p, hp => absurd hp (List.not_mem_nil p)
  | q :: t, a, p, hp => by
    rw [List.foldl_cons]
    rcases List.mem_cons.mp hp with hq | ht
    · subst hq
      exact le_trans (le_max_right a (f p)) (foldl_max_init_le f t _)
    · exact mem_le_foldl_max f t _ p ht

/-- C7: whenever convertToArcs replaces a Bézier in the list by an Arc at
tolerance t, every one of the 11 points sampled uniformly on that Bézier
lies within t of the fitted circle (| |sample - center| - radius | <= t),
and the arc is marked clockwise exactly when the 2D cross product
(mid - start) x (end - start) is negative, mid being the Bézier at
parameter 1/2; and a degenerate circle fit keeps the Bézier unchanged. -/
theorem convertToArcs_spec (curves : List CurveSegment) (t : ℝ) (i : ℕ)
    (b : BezierCurve) (hb : curves[i]? = some (CurveSegment.bezier b)) :
    (∀ a : Arc, (convertToArcs curves t)[i]? = some (CurveSegment.arc a) →
      (∀ p ∈ samplePoints b, |distance p a.center - a.radius| ≤ t) ∧
      (a.clockwise ↔ bezierCross b < 0)) ∧
    (fitCircleToPoints (samplePoints b) = none →
      (convertToArcs curves t)[i]? = some (CurveSegment.bezier b)) := by
  constructor
  · intro a ha
    unfold convertToArcs at ha
    rw [List.getElem?_map, hb, Option.map_some'] at ha
    injection ha with ha
    dsimp only at ha
    cases htc : tryConvertBezierToArc b t with
    | none =>
      rw [htc] at ha
      exact CurveSegment.noConfusion ha
    | some a' =>
      rw [htc] at ha
      simp only at ha
      injection ha with ha
      subst ha
      unfold tryConvertBezierToArc at htc
      cases hfc : fitCircleToPoints (samplePoints b) with
      | none =>
        rw [hfc] at htc
        cases htc
      | some c =>
        rw [hfc] at htc
        simp only at htc
        by_cases hmax : maxRadialError (samplePoints b) c.1 c.2 ≤ t
        · rw [if_pos hmax] at htc
          injection htc with htc
          subst htc
          constructor
          · intro p hp
            exact le_trans (mem_le_foldl_max (fun p => |distance p c.1 - c.2|)
              (samplePoints b) 0 p hp) hmax
          · exact Iff.rfl
        · rw [if_neg hmax] at htc
          cases htc
  · intro hfc
    have htc : tryConvertBezierToArc b t = none := by
      unfold tryConvertBezierToArc
      rw [hfc]
    unfold convertToArcs
    rw [List.getElem?_map, hb, Option.map_some']
    simp only
    rw [htc]

/-- Witness for C7 at the collinear Bézier ((0,0),(1,0),(2,0),(3,0)) in a
one-element list with tolerance 1. -/
theorem convertToArcs_spec_witness :
    ([CurveSegment.bezier ⟨⟨0, 0⟩, ⟨1, 0⟩, ⟨2, 0⟩, ⟨3, 0⟩⟩] :
        List CurveSegment)[0]? = some (CurveSegment.bezier ⟨⟨0, 0⟩, ⟨1, 0⟩, ⟨2, 0⟩, ⟨3, 0⟩⟩) ∧
      ((∀ a : Arc,
        (convertToArcs [CurveSegment.bezier ⟨⟨0, 0⟩, ⟨1, 0⟩, ⟨2, 0⟩, ⟨3, 0⟩⟩] 1)[0]? =
          some (CurveSegment.arc a) →
        (∀ p ∈ samplePoints ⟨⟨0, 0⟩, ⟨1, 0⟩, ⟨2, 0⟩, ⟨3, 0⟩⟩,
          |distance p a.center - a.radius| ≤ 1) ∧
        (a.clockwise ↔ bezierCross ⟨⟨0, 0⟩, ⟨1, 0⟩, ⟨2, 0⟩, ⟨3, 0⟩⟩ < 0)) ∧
      (fitCircleToPoints (samplePoints ⟨⟨0, 0⟩, ⟨1, 0⟩, ⟨2, 0⟩, ⟨3, 0⟩⟩) = none →
        (convertToArcs [CurveSegment.bezier ⟨⟨0, 0⟩, ⟨1, 0⟩, ⟨2, 0⟩, ⟨3, 0⟩⟩] 1)[0]? =
          some (CurveSegment.bezier ⟨⟨0, 0⟩, ⟨1, 0⟩, ⟨2, 0⟩, ⟨3, 0⟩⟩))) :=
  ⟨rfl, convertToArcs_spec [CurveSegment.bezier ⟨⟨0, 0⟩, ⟨1, 0⟩, ⟨2, 0⟩, ⟨3, 0⟩⟩] 1 0
    ⟨⟨0, 0⟩, ⟨1, 0⟩, ⟨2, 0⟩, ⟨3, 0⟩⟩ rfl⟩

end CurveFitter

namespace CurveFitter

/-- CurveFitter.calculateCurveError: RMS distance between the points and
the curve sampled at t = i/(n-1). -/
def calculateCurveError (points : List Pt) (curve : BezierCurve) : ℝ :=
  Real.sqrt ((((List.range points.length).map fun i =>
    distance (points.getD i default)
        (evaluateBezier curve ((i : ℝ) / ((points.length : ℝ) - 1))) *
      distance (points.getD i default)
        (evaluateBezier curve ((i : ℝ) / ((points.length : ℝ) - 1)))).sum) / points.length)

/-- CurveFitter.createSimpleBezier. -/
def createSimpleBezier (p0 p1 p2 : Pt) : BezierCurve :=
  ⟨p0, ⟨p0.x + (p1.x - p0.x) * (1 / 2), p0.y + (p1.y - p0.y) * (1 / 2)⟩,
    ⟨p1.x + (p2.x - p1.x) * (1 / 2), p1.y + (p2.y - p1.y) * (1 / 2)⟩, p2⟩

/-- The unnormalized difference vector of calculateTangent. -/
def tangentRaw (points : List Pt) (index : ℕ) : Pt :=
  if index = 0 then
    ⟨(points.getD 1 default).x - (points.getD 0 default).x,
      (points.getD 1 default).y - (points.getD 0 default).y⟩
  else if index = points.length - 1 then
    ⟨(points.getD (points.length - 1) default).x - (points.getD (points.length - 2) default).x,
      (points.getD (points.length - 1) default).y - (points.getD (points.length - 2) default).y⟩
  else
    ⟨(points.getD (index + 1) default).x - (points.getD (index - 1) default).x,
      (points.getD (index + 1) default).y - (points.getD (index - 1) default).y⟩

/-- CurveFitter.calculateTangent: the difference vector, normalized when
its length is positive. -/
def calculateTangent (points : List Pt) (index : ℕ) : Pt :=
  if Real.sqrt ((tangentRaw points index).x * (tangentRaw points index).x +
      (tangentRaw points index).y * (tangentRaw points index).y) > 0 then
    ⟨(tangentRaw points index).x / Real.sqrt ((tangentRaw points index).x *
        (tangentRaw points index).x + (tangentRaw points index).y * (tangentRaw points index).y),
      (tangentRaw points index).y / Real.sqrt ((tangentRaw points index).x *
        (tangentRaw points index).x + (tangentRaw points index).y * (tangentRaw points index).y)⟩
  else tangentRaw points index

/-- The eight control-point perturbations of optimizeControlPoints. -/
def perturbations : List (ℝ × ℝ) :=
  [(1/2, 0), (-1/2, 0), (0, 1/2), (0, -1/2), (1/2, 1/2), (-1/2, -1/2), (1/2, -1/2), (-1/2, 1/2)]

def ocpCand1 (s : Pt × Pt × ℝ) (d1 : ℝ × ℝ) : Pt := ⟨s.1.x + d1.1, s.1.y + d1.2⟩

def ocpCand2 (s : Pt × Pt × ℝ) (d2 : ℝ × ℝ) : Pt := ⟨s.2.1.x + d2.1, s.2.1.y + d2.2⟩

/-- One candidate test of optimizeControlPoints: accept the perturbed
control points when they strictly lower the RMS error. -/
def ocpTry (points : List Pt) (start end' : Pt) (s : Pt × Pt × ℝ) (d1 d2 : ℝ × ℝ) :
    Pt × Pt × ℝ :=
  if calculateCurveError points ⟨start, ocpCand1 s d1, ocpCand2 s d2, end'⟩ < s.2.2 then
    (ocpCand1 s d1, ocpCand2 s d2,
      calculateCurveError points ⟨start, ocpCand1 s d1, ocpCand2 s d2, end'⟩)
  else s

/-- One outer iteration: the two nested perturbation loops. -/
def ocpOuter (points : List Pt) (start end' : Pt) (s : Pt × Pt × ℝ) : Pt × Pt × ℝ :=
  perturbations.foldl
    (fun s d1 => perturbations.foldl (fun s d2 => ocpTry points start end' s d1 d2) s) s

/-- The five greedy improvement iterations of optimizeControlPoints. -/
def ocpLoop (points : List Pt) (start end' : Pt) (s : Pt × Pt × ℝ) : Pt × Pt × ℝ :=
  (List.range 5).foldl (fun s _ => ocpOuter points start end' s) s

/-- CurveFitter.optimizeControlPoints. -/
def optimizeControlPoints (points : List Pt) (start control1 control2 end' : Pt) : Pt × Pt :=
  ((ocpLoop points start end'
      (control1, control2, calculateCurveError points ⟨start, control1, control2, end'⟩)).1,
    (ocpLoop points start end'
      (control1, control2, calculateCurveError points ⟨start, control1, control2, end'⟩)).2.1)

/-- Initial control point 1 of fitBezierToPoints (tangent times 0.3 times
chord length from the start). -/
def fbpC1 (points : List Pt) : Pt :=
  ⟨(points.getD 0 default).x + (calculateTangent points 0).x *
      (distance (points.getD 0 default) (points.getD (points.length - 1) default) * (3 / 10)),
    (points.getD 0 default).y + (calculateTangent points 0).y *
      (distance (points.getD 0 default) (points.getD (points.length - 1) default) * (3 / 10))⟩

/-- Initial control point 2 of fitBezierToPoints. -/
def fbpC2 (points : List Pt) : Pt :=
  ⟨(points.getD (points.length - 1) default).x - (calculateTangent points (points.length - 1)).x *
      (distance (points.getD 0 default) (points.getD (points.length - 1) default) * (3 / 10)),
    (points.getD (points.length - 1) default).y - (calculateTangent points (points.length - 1)).y *
      (distance (points.getD 0 default) (points.getD (points.length - 1) default) * (3 / 10))⟩

/-- CurveFitter.fitBezierToPoints; for fewer than three points the source
falls back to createSimpleBezier with JS undefined-coalescing. -/
def fitBezierToPoints (points : List Pt) : BezierCurve :=
  if points.length < 3 then
    createSimpleBezier (points.getD 0 default)
      (if points.length ≤ 1 then points.getD 0 default else points.getD 1 default)
      (if points.length = 2 then points.getD 1 default else points.getD 0 default)
  else
    ⟨points.getD 0 default,
      (optimizeControlPoints points (points.getD 0 default) (fbpC1 points) (fbpC2 points)
        (points.getD (points.length - 1) default)).1,
      (optimizeControlPoints points (points.getD 0 default) (fbpC1 points) (fbpC2 points)
        (points.getD (points.length - 1) default)).2,
      points.getD (points.length - 1) default⟩

/-- CurveFitter.findBestCurveFit's descending length loop, indexed by the
current window length (lengths below 3 exit with null). -/
def findBestAux (points : List Pt) (startIndex : ℕ) (tolerance : ℝ) :
    ℕ → Option (BezierCurve × ℕ)
  | 0 => none
  | 1 => none
  | 2 => none
  | len + 3 =>
    if points.length ≤ startIndex + (len + 3) - 1 then
      findBestAux points startIndex tolerance (len + 2)
    else
      if calculateCurveError ((points.drop startIndex).take (len + 3))
          (fitBezierToPoints ((points.drop startIndex).take (len + 3))) ≤ tolerance then
        some (fitBezierToPoints ((points.drop startIndex).take (len + 3)),
          startIndex + (len + 3) - 1)
      else findBestAux points startIndex tolerance (len + 2)

/-- CurveFitter.findBestCurveFit. -/
def findBestCurveFit (points : List Pt) (startIndex : ℕ) (tolerance : ℝ) :
    Option (BezierCurve × ℕ) :=
  findBestAux points startIndex tolerance (min (points.length - startIndex) 20)

/-- CurveFitter.fitCurves's while loop with explicit fuel; every iteration
advances i by at least one, so fuel length+1 covers every run. -/
def fitCurvesGo (points : List Pt) (tolerance : ℝ) : ℕ → ℕ → List CurveSegment
  | 0, _ => []
  | fuel + 1, i =>
    if i < points.length - 1 then
      match findBestCurveFit points i tolerance with
      | some bf => CurveSegment.bezier bf.1 :: fitCurvesGo points tolerance fuel bf.2
      | none =>
        if i < points.length - 2 then
          CurveSegment.bezier (createSimpleBezier (points.getD i default)
              (points.getD (i + 1) default) (points.getD (i + 2) default)) ::
            fitCurvesGo points tolerance fuel (i + 2)
        else fitCurvesGo points tolerance fuel (i + 1)
    else []

/-- CurveFitter.fitCurves. -/
def fitCurves (points : List Pt) (tolerance : ℝ) : List CurveSegment :=
  if points.length < 3 then [] else fitCurvesGo points tolerance (points.length + 1) 0

/-- Start point of a curve segment. -/
def segStart : CurveSegment → Pt
  | CurveSegment.bezier b => b.start
  | CurveSegment.arc a => a.start

/-- End point of a curve segment. -/
def segEnd : CurveSegment → Pt
  | CurveSegment.bezier b => b.end'
  | CurveSegment.arc a => a.end'

/-- The concrete polyline of claim C6. -/
def pts5L : List Pt := [⟨0, 0⟩, ⟨1, 1⟩, ⟨2, 0⟩, ⟨3, -1⟩, ⟨4, 0⟩]

end CurveFitter

namespace CurveFitter

/-- Elements a + b*sqrt(2) of Z[sqrt 2], as integer pairs: the exact
arithmetic mirror used to evaluate the control-point optimization. -/
abbrev Z2 := ℤ × ℤ

def z2add (u v : Z2) : Z2 := (u.1 + v.1, u.2 + v.2)

def z2sub (u v : Z2) : Z2 := (u.1 - v.1, u.2 - v.2)

def z2mul (u v : Z2) : Z2 := (u.1 * v.1 + 2 * u.2 * v.2, u.1 * v.2 + u.2 * v.1)

def z2smul (n : ℤ) (v : Z2) : Z2 := (n * v.1, n * v.2)

/-- Interpretation of a mirror value in the reals. -/
def interpZ (z : Z2) : ℝ := (z.1 : ℝ) + (z.2 : ℝ) * Real.sqrt 2

theorem interpZ_mk (p q : ℤ) : interpZ (p, q) = (p : ℝ) + (q : ℝ) * Real.sqrt 2 := rfl

theorem interpZ_add (u v : Z2) : interpZ (z2add u v) = interpZ u + interpZ v := by
  unfold interpZ z2add
  push_cast
  ring

theorem interpZ_sub (u v : Z2) : interpZ (z2sub u v) = interpZ u - interpZ v := by
  unfold interpZ z2sub
  push_cast
  ring

theorem interpZ_smul (n : ℤ) (v : Z2) : interpZ (z2smul n v) = (n : ℝ) * interpZ v := by
  unfold interpZ z2smul
  push_cast
  ring

theorem interpZ_mul (u v : Z2) : interpZ (z2mul u v) = interpZ u * interpZ v := by
  unfold interpZ z2mul
  push_cast
  have hs : Real.sqrt 2 * Real.sqrt 2 = 2 := Real.mul_self_sqrt (by norm_num)
  linear_combination (-(u.2 : ℝ) * (v.2 : ℝ)) * hs

/-- Decision procedure for 0 < a + b*sqrt(2) by integer comparisons. -/
def zposB (d : Z2) : Bool :=
  (decide (0 ≤ d.1) && decide (0 ≤ d.2) && (decide (0 < d.1) || decide (0 < d.2))) ||
  (decide (0 ≤ d.1) && decide (d.2 < 0) && decide (2 * d.2 * d.2 < d.1 * d.1)) ||
  (decide (d.1 < 0) && decide (0 ≤ d.2) && decide (d.1 * d.1 < 2 * d.2 * d.2))

theorem zposB_iff (d : Z2) : zposB d = true ↔ 0 < interpZ d := by
  have hs : Real.sqrt 2 * Real.sqrt 2 = 2 := Real.mul_self_sqrt (by norm_num)
  have hs0 : (0 : ℝ) < Real.sqrt 2 := Real.sqrt_pos.mpr (by norm_num)
  unfold zposB interpZ
  simp only [Bool.or_eq_true, Bool.and_eq_true, decide_eq_true_eq]
  constructor
  · rintro ((⟨⟨h1, h2⟩, h3 | h3⟩ | ⟨⟨h1, h2⟩, h3⟩) | ⟨⟨h1, h2⟩, h3⟩)
    · have hb : (0 : ℝ) ≤ (d.2 : ℝ) * Real.sqrt 2 :=
        mul_nonneg (by exact_mod_cast h2) (le_of_lt hs0)
      have ha : (0 : ℝ) < (d.1 : ℝ) := by exact_mod_cast h3
      linarith
    · have hb : (0 : ℝ) < (d.2 : ℝ) * Real.sqrt 2 :=
        mul_pos (by exact_mod_cast h3) hs0
      have ha : (0 : ℝ) ≤ (d.1 : ℝ) := by exact_mod_cast h1
      linarith
    · have ha : (0 : ℝ) ≤ (d.1 : ℝ) := by exact_mod_cast h1
      have hb : (d.2 : ℝ) < 0 := by exact_mod_cast h2
      have hsq : 2 * (d.2 : ℝ) * (d.2 : ℝ) < (d.1 : ℝ) * (d.1 : ℝ) := by exact_mod_cast h3
      have hfac : (0 : ℝ) < (d.1 : ℝ) - (d.2 : ℝ) * Real.sqrt 2 := by
        have : (0 : ℝ) < -(d.2 : ℝ) * Real.sqrt 2 := mul_pos (by linarith) hs0
        linarith
      have hprod : ((d.1 : ℝ) + (d.2 : ℝ) * Real.sqrt 2) *
          ((d.1 : ℝ) - (d.2 : ℝ) * Real.sqrt 2) = (d.1 : ℝ) * (d.1 : ℝ) -
          2 * (d.2 : ℝ) * (d.2 : ℝ) := by
        linear_combination (-(d.2 : ℝ) * (d.2 : ℝ)) * hs
      nlinarith [hprod, hfac, hsq]
    · have ha : (d.1 : ℝ) < 0 := by exact_mod_cast h1
      have hb : (0 : ℝ) ≤ (d.2 : ℝ) := by exact_mod_cast h2
      have hsq : (d.1 : ℝ) * (d.1 : ℝ) < 2 * (d.2 : ℝ) * (d.2 : ℝ) := by exact_mod_cast h3
      have hfac : (0 : ℝ) < (d.2 : ℝ) * Real.sqrt 2 - (d.1 : ℝ) := by
        have : (0 : ℝ) ≤ (d.2 : ℝ) * Real.sqrt 2 := mul_nonneg hb (le_of_lt hs0)
        linarith
      have hprod : ((d.1 : ℝ) + (d.2 : ℝ) * Real.sqrt 2) *
          ((d.2 : ℝ) * Real.sqrt 2 - (d.1 : ℝ)) = 2 * (d.2 : ℝ) * (d.2 : ℝ) -
          (d.1 : ℝ) * (d.1 : ℝ) := by
        linear_combination ((d.2 : ℝ) * (d.2 : ℝ)) * hs
      nlinarith [hprod, hfac, hsq]
  · intro hpos
    by_contra hnot
    push_neg at hnot
    obtain ⟨⟨hc1, hc2⟩, hc3⟩ := hnot
    rcases le_or_lt 0 d.1 with ha | ha
    · rcases le_or_lt 0 d.2 with hb | hb
      · obtain ⟨hz1, hz2⟩ := hc1 ⟨ha, hb⟩
        have h1 : d.1 = 0 := le_antisymm hz1 ha
        have h2 : d.2 = 0 := le_antisymm hz2 hb
        rw [h1, h2] at hpos
        norm_num at hpos
      · have hsq := hc2 ⟨ha, hb⟩
        have hsq' : (d.1 : ℝ) * (d.1 : ℝ) ≤ 2 * (d.2 : ℝ) * (d.2 : ℝ) := by exact_mod_cast hsq
        have ha' : (0 : ℝ) ≤ (d.1 : ℝ) := by exact_mod_cast ha
        have hb' : (d.2 : ℝ) < 0 := by exact_mod_cast hb
        have hfac : (0 : ℝ) < (d.1 : ℝ) - (d.2 : ℝ) * Real.sqrt 2 := by
          have : (0 : ℝ) < -(d.2 : ℝ) * Real.sqrt 2 := mul_pos (by linarith) hs0
          linarith
        have hprod : ((d.1 : ℝ) + (d.2 : ℝ) * Real.sqrt 2) *
            ((d.1 : ℝ) - (d.2 : ℝ) * Real.sqrt 2) = (d.1 : ℝ) * (d.1 : ℝ) -
            2 * (d.2 : ℝ) * (d.2 : ℝ) := by
          linear_combination (-(d.2 : ℝ) * (d.2 : ℝ)) * hs
        nlinarith [hprod, hfac, hsq', hpos]
    · rcases le_or_lt 0 d.2 with hb | hb
      · have hsq := hc3 ⟨ha, hb⟩
        have hsq' : 2 * (d.2 : ℝ) * (d.2 : ℝ) ≤ (d.1 : ℝ) * (d.1 : ℝ) := by exact_mod_cast hsq
        have ha' : (d.1 : ℝ) < 0 := by exact_mod_cast ha
        have hb' : (0 : ℝ) ≤ (d.2 : ℝ) := by exact_mod_cast hb
        have hfac : (0 : ℝ) < (d.2 : ℝ) * Real.sqrt 2 - (d.1 : ℝ) := by
          have : (0 : ℝ) ≤ (d.2 : ℝ) * Real.sqrt 2 := mul_nonneg hb' (le_of_lt hs0)
          linarith
        have hprod : ((d.1 : ℝ) + (d.2 : ℝ) * Real.sqrt 2) *
            ((d.2 : ℝ) * Real.sqrt 2 - (d.1 : ℝ)) = 2 * (d.2 : ℝ) * (d.2 : ℝ) -
            (d.1 : ℝ) * (d.1 : ℝ) := by
          linear_combination ((d.2 : ℝ) * (d.2 : ℝ)) * hs
        nlinarith [hprod, hfac, hsq', hpos]
      · have ha' : (d.1 : ℝ) < 0 := by exact_mod_cast ha
        have hb' : (d.2 : ℝ) < 0 := by exact_mod_cast hb
        have : (d.2 : ℝ) * Real.sqrt 2 < 0 := mul_neg_of_neg_of_pos hb' hs0
        linarith

/-- Mirror strict comparison: u < v in Z[sqrt 2]. -/
def zltB (u v : Z2) : Bool := zposB (z2sub v u)

theorem zltB_iff (u v : Z2) : zltB u v = true ↔ interpZ u < interpZ v := by
  unfold zltB
  rw [zposB_iff, interpZ_sub]
  exact sub_pos

end CurveFitter

namespace CurveFitter

/-- Mirror control points (c1x, c1y, c2x, c2y), coordinates scaled by 20
so every value reached by the half-step perturbations is integral. -/
abbrev MCtl := Z2 × Z2 × Z2 × Z2

/-- Mirror optimizer state: controls plus the error radicand scaled by
1638400 = (20*64)^2. -/
abbrev MState := MCtl × Z2

/-- Per-sample data for the C6 polyline: point coordinates scaled by
1280 = 20*64 and the four Bernstein weights at t = i/4 scaled by 64. -/
def mSamples : List (ℤ × ℤ × ℤ × ℤ × ℤ × ℤ) :=
  [(0, 0, 64, 0, 0, 0),
   (1280, 1280, 27, 27, 9, 1),
   (2560, 0, 8, 24, 24, 8),
   (3840, -1280, 1, 9, 27, 27),
   (5120, 0, 0, 0, 0, 64)]

/-- Mirror Bézier x-coordinate at a sample, scaled by 1280 (start x = 0,
end x = 80 at scale 20). -/
def mBx (c1x c2x : Z2) (w0 w1 w2 w3 : ℤ) : Z2 :=
  z2add (z2add (z2smul w0 (0, 0)) (z2smul w1 c1x))
    (z2add (z2smul w2 c2x) (z2smul w3 (80, 0)))

/-- Mirror Bézier y-coordinate at a sample (start y = end y = 0). -/
def mBy (c1y c2y : Z2) (w0 w1 w2 w3 : ℤ) : Z2 :=
  z2add (z2add (z2smul w0 (0, 0)) (z2smul w1 c1y))
    (z2add (z2smul w2 c2y) (z2smul w3 (0, 0)))

/-- Squared distance of one sample to the mirror Bézier, scaled by
1638400. -/
def mSampleTerm (c : MCtl) (sm : ℤ × ℤ × ℤ × ℤ × ℤ × ℤ) : Z2 :=
  z2add
    (z2mul (z2sub (sm.1, 0) (mBx c.1 c.2.2.1 sm.2.2.1 sm.2.2.2.1 sm.2.2.2.2.1 sm.2.2.2.2.2))
      (z2sub (sm.1, 0) (mBx c.1 c.2.2.1 sm.2.2.1 sm.2.2.2.1 sm.2.2.2.2.1 sm.2.2.2.2.2)))
    (z2mul (z2sub (sm.2.1, 0) (mBy c.2.1 c.2.2.2 sm.2.2.1 sm.2.2.2.1 sm.2.2.2.2.1 sm.2.2.2.2.2))
      (z2sub (sm.2.1, 0) (mBy c.2.1 c.2.2.2 sm.2.2.1 sm.2.2.2.1 sm.2.2.2.2.1 sm.2.2.2.2.2)))

/-- Mirror error radicand: the sum of squared sample distances, scaled by
1638400. -/
def mErr (c : MCtl) : Z2 :=
  mSamples.foldl (fun acc sm => z2add acc (mSampleTerm c sm)) (0, 0)

/-- The eight perturbations at coordinate scale 20. -/
def pertZ : List (ℤ × ℤ) :=
  [(10, 0), (-10, 0), (0, 10), (0, -10), (10, 10), (-10, -10), (10, -10), (-10, 10)]

/-- Perturbed mirror controls. -/
def mCand (c : MCtl) (d1 d2 : ℤ × ℤ) : MCtl :=
  (z2add c.1 (d1.1, 0), z2add c.2.1 (d1.2, 0),
    z2add c.2.2.1 (d2.1, 0), z2add c.2.2.2 (d2.2, 0))

/-- Mirror of one candidate test of the optimizer. -/
def mTry (s : MState) (d1 d2 : ℤ × ℤ) : MState :=
  if zltB (mErr (mCand s.1 d1 d2)) s.2 then (mCand s.1 d1 d2, mErr (mCand s.1 d1 d2))
  else s

/-- Mirror of one outer optimizer iteration. -/
def mOuter (s : MState) : MState :=
  pertZ.foldl (fun s d1 => pertZ.foldl (fun s d2 => mTry s d1 d2) s) s

/-- Mirror of the five-iteration optimizer loop. -/
def mLoop (s : MState) : MState :=
  (List.range 5).foldl (fun s _ => mOuter s) s

/-- Trace checker: verifies that a list of states is the orbit of mTry
from s along the given perturbation pairs. -/
def checkTrace : MState → List MState → List ((ℤ × ℤ) × (ℤ × ℤ)) → Bool
  | _, [], [] => true
  | s, s' :: rest, d :: drest => decide (mTry s d.1 d.2 = s') && checkTrace s' rest drest
  | _, _ :: _, [] => false
  | _, [], _ :: _ => false

theorem checkTrace_spec :
    ∀ (l : List MState) (ds : List ((ℤ × ℤ) × (ℤ × ℤ))) (s : MState),
      checkTrace s l ds = true →
      ds.foldl (fun a d => mTry a d.1 d.2) s = l.getLastD s
  | [], [], s, _ => rfl
  | [], _ :: _, s, h => by
    rw [checkTrace] at h
    cases h
  | _ :: _, [], s, h => by
    rw [checkTrace] at h
    cases h
  | s' :: rest, d :: drest, s, h => by
    rw [checkTrace] at h
    rw [Bool.and_eq_true, decide_eq_true_eq] at h
    obtain ⟨h1, h2⟩ := h
    rw [List.foldl_cons, h1, checkTrace_spec rest drest s' h2, List.getLastD_cons]

/-- The flattened step list of the mirror loop: five rounds of the 64
lexicographic perturbation pairs. -/
def mSteps : List ((ℤ × ℤ) × (ℤ × ℤ)) :=
  (List.range 5).flatMap fun _ => pertZ.flatMap fun d1 => pertZ.map fun d2 => (d1, d2)

theorem foldl_pairs {σ α β : Type _} (f : σ → α → β → σ) (l₂ : List β) :
    ∀ (l₁ : List α) (s : σ),
      l₁.foldl (fun s a => l₂.foldl (fun s b => f s a b) s) s =
        (l₁.flatMap fun a => l₂.map fun b => (a, b)).foldl (fun s p => f s p.1 p.2) s
  | [], s => rfl
  | a :: t, s => by
    rw [List.foldl_cons, List.flatMap_cons, List.foldl_append, foldl_pairs f l₂ t]
    congr 1
    induction l₂ generalizing s with
    | nil => rfl
    | cons b tb ih => rw [List.foldl_cons, List.map_cons, List.foldl_cons, ih]

theorem foldl_flatMap {σ : Type _} {α : Type _} {β : Type _} (f : σ → β → σ)
    (h : α → List β) :
    ∀ (l : List α) (s : σ),
      (l.flatMap h).foldl f s = l.foldl (fun s a => (h a).foldl f s) s
  | [], s => rfl
  | a :: t, s => by
    rw [List.flatMap_cons, List.foldl_append, List.foldl_cons, foldl_flatMap f h t]

theorem mOuter_flat (s : MState) :
    mOuter s = (pertZ.flatMap fun d1 => pertZ.map fun d2 => (d1, d2)).foldl
      (fun a p => mTry a p.1 p.2) s :=
  foldl_pairs (fun s d1 d2 => mTry s d1 d2) pertZ pertZ s

theorem foldl_fun_congr {σ : Type _} {α : Type _} (g h : σ → σ) (hg : ∀ x, g x = h x) :
    ∀ (l : List α) (s : σ), l.foldl (fun s _ => g s) s = l.foldl (fun s _ => h s) s
  | [], _ => rfl
  | _ :: t, s => by
    rw [List.foldl_cons, List.foldl_cons, hg s, foldl_fun_congr g h hg t]

theorem mLoop_flat (s : MState) :
    mLoop s = mSteps.foldl (fun a d => mTry a d.1 d.2) s := by
  unfold mLoop mSteps
  rw [foldl_flatMap]
  exact foldl_fun_congr _ _ (fun x => mOuter_flat x) _ s

end CurveFitter

namespace CurveFitter

set_option maxRecDepth 100000

set_option maxHeartbeats 1000000

def mTrace1 : List MState :=
  [(((0, 12), (0, 12), (80, -12), (0, -12)), (4110848, -1520640)),
   (((10, 12), (0, 12), (70, -12), (0, -12)), (3830048, -1365120)),
   (((10, 12), (0, 12), (70, -12), (0, -12)), (3830048, -1365120)),
   (((20, 12), (0, 12), (70, -12), (-10, -12)), (3538448, -1209600)),
   (((20, 12), (0, 12), (70, -12), (-10, -12)), (3538448, -1209600)),
   (((20, 12), (0, 12), (70, -12), (-10, -12)), (3538448, -1209600)),
   (((20, 12), (0, 12), (70, -12), (-10, -12)), (3538448, -1209600)),
   (((20, 12), (0, 12), (70, -12), (-10, -12)), (3538448, -1209600)),
   (((10, 12), (0, 12), (80, -12), (-10, -12)), (3754448, -1365120)),
   (((10, 12), (0, 12), (80, -12), (-10, -12)), (3754448, -1365120)),
   (((10, 12), (0, 12), (80, -12), (-10, -12)), (3754448, -1365120)),
   (((0, 12), (0, 12), (80, -12), (-20, -12)), (3743648, -1365120)),
   (((0, 12), (0, 12), (80, -12), (-20, -12)), (3743648, -1365120)),
   (((0, 12), (0, 12), (80, -12), (-20, -12)), (3743648, -1365120)),
   (((0, 12), (0, 12), (80, -12), (-20, -12)), (3743648, -1365120)),
   (((0, 12), (0, 12), (80, -12), (-20, -12)), (3743648, -1365120)),
   (((0, 12), (10, 12), (90, -12), (-20, -12)), (3308048, -1365120)),
   (((0, 12), (20, 12), (80, -12), (-20, -12)), (2526848, -1209600)),
   (((0, 12), (20, 12), (80, -12), (-20, -12)), (2526848, -1209600)),
   (((0, 12), (30, 12), (80, -12), (-30, -12)), (1929248, -1054080)),
   (((0, 12), (30, 12), (80, -12), (-30, -12)), (1929248, -1054080)),
   (((0, 12), (40, 12), (70, -12), (-40, -12)), (1427048, -820800)),
   (((0, 12), (50, 12), (80, -12), (-50, -12)), (1122848, -743040)),
   (((0, 12), (50, 12), (80, -12), (-50, -12)), (1122848, -743040)),
   (((0, 12), (50, 12), (80, -12), (-50, -12)), (1122848, -743040)),
   (((0, 12), (50, 12), (80, -12), (-50, -12)), (1122848, -743040)),
   (((0, 12), (50, 12), (80, -12), (-50, -12)), (1122848, -743040)),
   (((0, 12), (50, 12), (80, -12), (-50, -12)), (1122848, -743040)),
   (((0, 12), (50, 12), (80, -12), (-50, -12)), (1122848, -743040)),
   (((0, 12), (50, 12), (80, -12), (-50, -12)), (1122848, -743040)),
   (((0, 12), (50, 12), (80, -12), (-50, -12)), (1122848, -743040)),
   (((0, 12), (50, 12), (80, -12), (-50, -12)), (1122848, -743040)),
   (((0, 12), (50, 12), (80, -12), (-50, -12)), (1122848, -743040)),
   (((0, 12), (50, 12), (80, -12), (-50, -12)), (1122848, -743040)),
   (((0, 12), (50, 12), (80, -12), (-50, -12)), (1122848, -743040)),
   (((0, 12), (50, 12), (80, -12), (-50, -12)), (1122848, -743040)),
   (((0, 12), (50, 12), (80, -12), (-50, -12)), (1122848, -743040)),
   (((10, 12), (60, 12), (70, -12), (-60, -12)), (633248, -432000)),
   (((10, 12), (60, 12), (70, -12), (-60, -12)), (633248, -432000)),
   (((10, 12), (60, 12), (70, -12), (-60, -12)), (633248, -432000))]

def mTrace2 : List MState :=
  [(((10, 12), (60, 12), (70, -12), (-60, -12)), (633248, -432000)),
   (((10, 12), (60, 12), (70, -12), (-60, -12)), (633248, -432000)),
   (((10, 12), (60, 12), (70, -12), (-60, -12)), (633248, -432000)),
   (((10, 12), (60, 12), (70, -12), (-60, -12)), (633248, -432000)),
   (((10, 12), (60, 12), (70, -12), (-60, -12)), (633248, -432000)),
   (((10, 12), (60, 12), (70, -12), (-60, -12)), (633248, -432000)),
   (((10, 12), (60, 12), (70, -12), (-60, -12)), (633248, -432000)),
   (((10, 12), (60, 12), (70, -12), (-60, -12)), (633248, -432000)),
   (((10, 12), (60, 12), (70, -12), (-60, -12)), (633248, -432000)),
   (((10, 12), (60, 12), (70, -12), (-60, -12)), (633248, -432000)),
   (((10, 12), (60, 12), (70, -12), (-60, -12)), (633248, -432000)),
   (((10, 12), (60, 12), (70, -12), (-60, -12)), (633248, -432000)),
   (((10, 12), (60, 12), (70, -12), (-60, -12)), (633248, -432000)),
   (((10, 12), (60, 12), (70, -12), (-60, -12)), (633248, -432000)),
   (((10, 12), (60, 12), (70, -12), (-60, -12)), (633248, -432000)),
   (((10, 12), (60, 12), (70, -12), (-60, -12)), (633248, -432000)),
   (((10, 12), (60, 12), (70, -12), (-60, -12)), (633248, -432000)),
   (((10, 12), (60, 12), (70, -12), (-60, -12)), (633248, -432000)),
   (((10, 12), (60, 12), (70, -12), (-60, -12)), (633248, -432000)),
   (((10, 12), (60, 12), (70, -12), (-60, -12)), (633248, -432000)),
   (((10, 12), (60, 12), (70, -12), (-60, -12)), (633248, -432000)),
   (((10, 12), (60, 12), (70, -12), (-60, -12)), (633248, -432000)),
   (((10, 12), (60, 12), (70, -12), (-60, -12)), (633248, -432000)),
   (((10, 12), (60, 12), (70, -12), (-60, -12)), (633248, -432000)),
   (((10, 12), (60, 12), (70, -12), (-60, -12)), (633248, -432000)),
   (((10, 12), (60, 12), (70, -12), (-60, -12)), (633248, -432000)),
   (((10, 12), (60, 12), (70, -12), (-60, -12)), (633248, -432000)),
   (((10, 12), (60, 12), (70, -12), (-60, -12)), (633248, -432000)),
   (((10, 12), (60, 12), (70, -12), (-60, -12)), (633248, -432000)),
   (((10, 12), (60, 12), (70, -12), (-60, -12)), (633248, -432000)),
   (((10, 12), (60, 12), (70, -12), (-60, -12)), (633248, -432000)),
   (((10, 12), (60, 12), (70, -12), (-60, -12)), (633248, -432000)),
   (((10, 12), (60, 12), (70, -12), (-60, -12)), (633248, -432000)),
   (((10, 12), (60, 12), (70, -12), (-60, -12)), (633248, -432000)),
   (((10, 12), (60, 12), (70, -12), (-60, -12)), (633248, -432000)),
   (((10, 12), (60, 12), (70, -12), (-60, -12)), (633248, -432000)),
   (((10, 12), (60, 12), (70, -12), (-60, -12)), (633248, -432000)),
   (((10, 12), (60, 12), (70, -12), (-60, -12)), (633248, -432000)),
   (((10, 12), (60, 12), (70, -12), (-60, -12)), (633248, -432000)),
   (((10, 12), (60, 12), (70, -12), (-60, -12)), (633248, -432000))]

def mTrace3 : List MState :=
  [(((10, 12), (60, 12), (70, -12), (-60, -12)), (633248, -432000)),
   (((10, 12), (60, 12), (70, -12), (-60, -12)), (633248, -432000)),
   (((10, 12), (60, 12), (70, -12), (-60, -12)), (633248, -432000)),
   (((10, 12), (60, 12), (70, -12), (-60, -12)), (633248, -432000)),
   (((10, 12), (60, 12), (70, -12), (-60, -12)), (633248, -432000)),
   (((10, 12), (60, 12), (70, -12), (-60, -12)), (633248, -432000)),
   (((10, 12), (60, 12), (70, -12), (-60, -12)), (633248, -432000)),
   (((10, 12), (60, 12), (70, -12), (-60, -12)), (633248, -432000)),
   (((10, 12), (60, 12), (70, -12), (-60, -12)), (633248, -432000)),
   (((10, 12), (60, 12), (70, -12), (-60, -12)), (633248, -432000)),
   (((10, 12), (50, 12), (70, -12), (-50, -12)), (842048, -587520)),
   (((10, 12), (50, 12), (70, -12), (-50, -12)), (842048, -587520)),
   (((10, 12), (50, 12), (70, -12), (-50, -12)), (842048, -587520)),
   (((10, 12), (50, 12), (70, -12), (-50, -12)), (842048, -587520)),
   (((10, 12), (50, 12), (70, -12), (-50, -12)), (842048, -587520)),
   (((10, 12), (50, 12), (70, -12), (-50, -12)), (842048, -587520)),
   (((10, 12), (50, 12), (70, -12), (-50, -12)), (842048, -587520)),
   (((10, 12), (50, 12), (70, -12), (-50, -12)), (842048, -587520)),
   (((10, 12), (50, 12), (70, -12), (-50, -12)), (842048, -587520)),
   (((10, 12), (50, 12), (70, -12), (-50, -12)), (842048, -587520)),
   (((10, 12), (50, 12), (70, -12), (-50, -12)), (842048, -587520)),
   (((10, 12), (50, 12), (70, -12), (-50, -12)), (842048, -587520)),
   (((10, 12), (50, 12), (70, -12), (-50, -12)), (842048, -587520)),
   (((10, 12), (50, 12), (70, -12), (-50, -12)), (842048, -587520)),
   (((10, 12), (50, 12), (70, -12), (-50, -12)), (842048, -587520)),
   (((10, 12), (50, 12), (70, -12), (-50, -12)), (842048, -587520)),
   (((10, 12), (50, 12), (70, -12), (-50, -12)), (842048, -587520)),
   (((10, 12), (50, 12), (70, -12), (-50, -12)), (842048, -587520)),
   (((10, 12), (50, 12), (70, -12), (-50, -12)), (842048, -587520)),
   (((10, 12), (50, 12), (70, -12), (-50, -12)), (842048, -587520)),
   (((10, 12), (50, 12), (70, -12), (-50, -12)), (842048, -587520)),
   (((10, 12), (50, 12), (70, -12), (-50, -12)), (842048, -587520)),
   (((10, 12), (50, 12), (70, -12), (-50, -12)), (842048, -587520)),
   (((10, 12), (50, 12), (70, -12), (-50, -12)), (842048, -587520)),
   (((10, 12), (50, 12), (70, -12), (-50, -12)), (842048, -587520)),
   (((10, 12), (50, 12), (70, -12), (-50, -12)), (842048, -587520)),
   (((10, 12), (50, 12), (70, -12), (-50, -12)), (842048, -587520)),
   (((10, 12), (50, 12), (70, -12), (-50, -12)), (842048, -587520)),
   (((10, 12), (50, 12), (70, -12), (-50, -12)), (842048, -587520)),
   (((10, 12), (50, 12), (70, -12), (-50, -12)), (842048, -587520))]

def mTrace4 : List MState :=
  [(((10, 12), (50, 12), (70, -12), (-50, -12)), (842048, -587520)),
   (((10, 12), (50, 12), (70, -12), (-50, -12)), (842048, -587520)),
   (((10, 12), (50, 12), (70, -12), (-50, -12)), (842048, -587520)),
   (((10, 12), (50, 12), (70, -12), (-50, -12)), (842048, -587520)),
   (((10, 12), (50, 12), (70, -12), (-50, -12)), (842048, -587520)),
   (((10, 12), (50, 12), (70, -12), (-50, -12)), (842048, -587520)),
   (((10, 12), (50, 12), (70, -12), (-50, -12)), (842048, -587520)),
   (((10, 12), (50, 12), (70, -12), (-50, -12)), (842048, -587520)),
   (((10, 12), (50, 12), (70, -12), (-50, -12)), (842048, -587520)),
   (((10, 12), (50, 12), (70, -12), (-50, -12)), (842048, -587520)),
   (((10, 12), (50, 12), (70, -12), (-50, -12)), (842048, -587520)),
   (((10, 12), (50, 12), (70, -12), (-50, -12)), (842048, -587520)),
   (((10, 12), (50, 12), (70, -12), (-50, -12)), (842048, -587520)),
   (((10, 12), (50, 12), (70, -12), (-50, -12)), (842048, -587520)),
   (((10, 12), (50, 12), (70, -12), (-50, -12)), (842048, -587520)),
   (((10, 12), (50, 12), (70, -12), (-50, -12)), (842048, -587520)),
   (((10, 12), (50, 12), (70, -12), (-50, -12)), (842048, -587520)),
   (((10, 12), (50, 12), (70, -12), (-50, -12)), (842048, -587520)),
   (((10, 12), (50, 12), (70, -12), (-50, -12)), (842048, -587520)),
   (((10, 12), (50, 12), (70, -12), (-50, -12)), (842048, -587520)),
   (((10, 12), (50, 12), (70, -12), (-50, -12)), (842048, -587520)),
   (((10, 12), (50, 12), (70, -12), (-50, -12)), (842048, -587520)),
   (((10, 12), (50, 12), (70, -12), (-50, -12)), (842048, -587520)),
   (((10, 12), (50, 12), (70, -12), (-50, -12)), (842048, -587520)),
   (((10, 12), (50, 12), (70, -12), (-50, -12)), (842048, -587520)),
   (((10, 12), (50, 12), (70, -12), (-50, -12)), (842048, -587520)),
   (((10, 12), (50, 12), (70, -12), (-50, -12)), (842048, -587520)),
   (((10, 12), (50, 12), (70, -12), (-50, -12)), (842048, -587520)),
   (((10, 12), (50, 12), (70, -12), (-50, -12)), (842048, -587520)),
   (((10, 12), (50, 12), (70, -12), (-50, -12)), (842048, -587520)),
   (((10, 12), (50, 12), (70, -12), (-50, -12)), (842048, -587520)),
   (((10, 12), (50, 12), (70, -12), (-50, -12)), (842048, -587520)),
   (((10, 12), (50, 12), (70, -12), (-50, -12)), (842048, -587520)),
   (((10, 12), (50, 12), (70, -12), (-50, -12)), (842048, -587520)),
   (((10, 12), (50, 12), (70, -12), (-50, -12)), (842048, -587520)),
   (((10, 12), (50, 12), (70, -12), (-50, -12)), (842048, -587520)),
   (((10, 12), (50, 12), (70, -12), (-50, -12)), (842048, -587520)),
   (((10, 12), (50, 12), (70, -12), (-50, -12)), (842048, -587520)),
   (((10, 12), (50, 12), (70, -12), (-50, -12)), (842048, -587520)),
   (((10, 12), (50, 12), (70, -12), (-50, -12)), (842048, -587520))]

def mTrace5 : List MState :=
  [(((10, 12), (50, 12), (70, -12), (-50, -12)), (842048, -587520)),
   (((10, 12), (50, 12), (70, -12), (-50, -12)), (842048, -587520)),
   (((10, 12), (50, 12), (70, -12), (-50, -12)), (842048, -587520)),
   (((10, 12), (50, 12), (70, -12), (-50, -12)), (842048, -587520)),
   (((10, 12), (50, 12), (70, -12), (-50, -12)), (842048, -587520)),
   (((10, 12), (50, 12), (70, -12), (-50, -12)), (842048, -587520)),
   (((10, 12), (50, 12), (70, -12), (-50, -12)), (842048, -587520)),
   (((10, 12), (50, 12), (70, -12), (-50, -12)), (842048, -587520)),
   (((10, 12), (50, 12), (70, -12), (-50, -12)), (842048, -587520)),
   (((10, 12), (50, 12), (70, -12), (-50, -12)), (842048, -587520)),
   (((10, 12), (50, 12), (70, -12), (-50, -12)), (842048, -587520)),
   (((10, 12), (50, 12), (70, -12), (-50, -12)), (842048, -587520)),
   (((10, 12), (50, 12), (70, -12), (-50, -12)), (842048, -587520)),
   (((10, 12), (50, 12), (70, -12), (-50, -12)), (842048, -587520)),
   (((10, 12), (50, 12), (70, -12), (-50, -12)), (842048, -587520)),
   (((10, 12), (50, 12), (70, -12), (-50, -12)), (842048, -587520)),
   (((10, 12), (50, 12), (70, -12), (-50, -12)), (842048, -587520)),
   (((10, 12), (50, 12), (70, -12), (-50, -12)), (842048, -587520)),
   (((10, 12), (50, 12), (70, -12), (-50, -12)), (842048, -587520)),
   (((10, 12), (50, 12), (70, -12), (-50, -12)), (842048, -587520)),
   (((10, 12), (50, 12), (70, -12), (-50, -12)), (842048, -587520)),
   (((10, 12), (50, 12), (70, -12), (-50, -12)), (842048, -587520)),
   (((10, 12), (50, 12), (70, -12), (-50, -12)), (842048, -587520)),
   (((10, 12), (50, 12), (70, -12), (-50, -12)), (842048, -587520)),
   (((10, 12), (50, 12), (70, -12), (-50, -12)), (842048, -587520)),
   (((10, 12), (50, 12), (70, -12), (-50, -12)), (842048, -587520)),
   (((10, 12), (50, 12), (70, -12), (-50, -12)), (842048, -587520)),
   (((10, 12), (50, 12), (70, -12), (-50, -12)), (842048, -587520)),
   (((10, 12), (50, 12), (70, -12), (-50, -12)), (842048, -587520)),
   (((10, 12), (50, 12), (70, -12), (-50, -12)), (842048, -587520)),
   (((10, 12), (50, 12), (70, -12), (-50, -12)), (842048, -587520)),
   (((10, 12), (50, 12), (70, -12), (-50, -12)), (842048, -587520)),
   (((10, 12), (50, 12), (70, -12), (-50, -12)), (842048, -587520)),
   (((10, 12), (50, 12), (70, -12), (-50, -12)), (842048, -587520)),
   (((10, 12), (50, 12), (70, -12), (-50, -12)), (842048, -587520)),
   (((10, 12), (50, 12), (70, -12), (-50, -12)), (842048, -587520)),
   (((10, 12), (50, 12), (70, -12), (-50, -12)), (842048, -587520)),
   (((10, 12), (50, 12), (70, -12), (-50, -12)), (842048, -587520)),
   (((10, 12), (50, 12), (70, -12), (-50, -12)), (842048, -587520)),
   (((10, 12), (50, 12), (70, -12), (-50, -12)), (842048, -587520))]

def mTrace6 : List MState :=
  [(((10, 12), (50, 12), (70, -12), (-50, -12)), (842048, -587520)),
   (((10, 12), (50, 12), (70, -12), (-50, -12)), (842048, -587520)),
   (((10, 12), (50, 12), (70, -12), (-50, -12)), (842048, -587520)),
   (((10, 12), (50, 12), (70, -12), (-50, -12)), (842048, -587520)),
   (((10, 12), (50, 12), (70, -12), (-50, -12)), (842048, -587520)),
   (((10, 12), (50, 12), (70, -12), (-50, -12)), (842048, -587520)),
   (((10, 12), (50, 12), (70, -12), (-50, -12)), (842048, -587520)),
   (((10, 12), (50, 12), (70, -12), (-50, -12)), (842048, -587520)),
   (((10, 12), (50, 12), (70, -12), (-50, -12)), (842048, -587520)),
   (((10, 12), (50, 12), (70, -12), (-50, -12)), (842048, -587520)),
   (((10, 12), (50, 12), (70, -12), (-50, -12)), (842048, -587520)),
   (((10, 12), (50, 12), (70, -12), (-50, -12)), (842048, -587520)),
   (((10, 12), (50, 12), (70, -12), (-50, -12)), (842048, -587520)),
   (((10, 12), (50, 12), (70, -12), (-50, -12)), (842048, -587520)),
   (((10, 12), (50, 12), (70, -12), (-50, -12)), (842048, -587520)),
   (((10, 12), (50, 12), (70, -12), (-50, -12)), (842048, -587520)),
   (((10, 12), (50, 12), (70, -12), (-50, -12)), (842048, -587520)),
   (((10, 12), (50, 12), (70, -12), (-50, -12)), (842048, -587520)),
   (((10, 12), (50, 12), (70, -12), (-50, -12)), (842048, -587520)),
   (((10, 12), (50, 12), (70, -12), (-50, -12)), (842048, -587520)),
   (((10, 12), (50, 12), (70, -12), (-50, -12)), (842048, -587520)),
   (((10, 12), (50, 12), (70, -12), (-50, -12)), (842048, -587520)),
   (((10, 12), (50, 12), (70, -12), (-50, -12)), (842048, -587520)),
   (((10, 12), (50, 12), (70, -12), (-50, -12)), (842048, -587520)),
   (((10, 12), (50, 12), (70, -12), (-50, -12)), (842048, -587520)),
   (((10, 12), (50, 12), (70, -12), (-50, -12)), (842048, -587520)),
   (((10, 12), (50, 12), (70, -12), (-50, -12)), (842048, -587520)),
   (((10, 12), (50, 12), (70, -12), (-50, -12)), (842048, -587520)),
   (((10, 12), (50, 12), (70, -12), (-50, -12)), (842048, -587520)),
   (((10, 12), (50, 12), (70, -12), (-50, -12)), (842048, -587520)),
   (((10, 12), (50, 12), (70, -12), (-50, -12)), (842048, -587520)),
   (((10, 12), (50, 12), (70, -12), (-50, -12)), (842048, -587520)),
   (((10, 12), (50, 12), (70, -12), (-50, -12)), (842048, -587520)),
   (((10, 12), (50, 12), (70, -12), (-50, -12)), (842048, -587520)),
   (((10, 12), (50, 12), (70, -12), (-50, -12)), (842048, -587520)),
   (((10, 12), (50, 12), (70, -12), (-50, -12)), (842048, -587520)),
   (((10, 12), (50, 12), (70, -12), (-50, -12)), (842048, -587520)),
   (((10, 12), (50, 12), (70, -12), (-50, -12)), (842048, -587520)),
   (((10, 12), (50, 12), (70, -12), (-50, -12)), (842048, -587520)),
   (((10, 12), (50, 12), (70, -12), (-50, -12)), (842048, -587520))]

def mTrace7 : List MState :=
  [(((10, 12), (50, 12), (70, -12), (-50, -12)), (842048, -587520)),
   (((10, 12), (50, 12), (70, -12), (-50, -12)), (842048, -587520)),
   (((10, 12), (50, 12), (70, -12), (-50, -12)), (842048, -587520)),
   (((10, 12), (50, 12), (70, -12), (-50, -12)), (842048, -587520)),
   (((10, 12), (50, 12), (70, -12), (-50, -12)), (842048, -587520)),
   (((10, 12), (50, 12), (70, -12), (-50, -12)), (842048, -587520)),
   (((10, 12), (50, 12), (70, -12), (-50, -12)), (842048, -587520)),
   (((10, 12), (50, 12), (70, -12), (-50, -12)), (842048, -587520)),
   (((10, 12), (50, 12), (70, -12), (-50, -12)), (842048, -587520)),
   (((10, 12), (50, 12), (70, -12), (-50, -12)), (842048, -587520)),
   (((10, 12), (50, 12), (70, -12), (-50, -12)), (842048, -587520)),
   (((10, 12), (50, 12), (70, -12), (-50, -12)), (842048, -587520)),
   (((10, 12), (50, 12), (70, -12), (-50, -12)), (842048, -587520)),
   (((10, 12), (50, 12), (70, -12), (-50, -12)), (842048, -587520)),
   (((10, 12), (50, 12), (70, -12), (-50, -12)), (842048, -587520)),
   (((10, 12), (50, 12), (70, -12), (-50, -12)), (842048, -587520)),
   (((10, 12), (50, 12), (70, -12), (-50, -12)), (842048, -587520)),
   (((10, 12), (50, 12), (70, -12), (-50, -12)), (842048, -587520)),
   (((10, 12), (50, 12), (70, -12), (-50, -12)), (842048, -587520)),
   (((10, 12), (50, 12), (70, -12), (-50, -12)), (842048, -587520)),
   (((10, 12), (50, 12), (70, -12), (-50, -12)), (842048, -587520)),
   (((10, 12), (50, 12), (70, -12), (-50, -12)), (842048, -587520)),
   (((10, 12), (50, 12), (70, -12), (-50, -12)), (842048, -587520)),
   (((10, 12), (50, 12), (70, -12), (-50, -12)), (842048, -587520)),
   (((10, 12), (50, 12), (70, -12), (-50, -12)), (842048, -587520)),
   (((10, 12), (50, 12), (70, -12), (-50, -12)), (842048, -587520)),
   (((10, 12), (50, 12), (70, -12), (-50, -12)), (842048, -587520)),
   (((10, 12), (50, 12), (70, -12), (-50, -12)), (842048, -587520)),
   (((10, 12), (50, 12), (70, -12), (-50, -12)), (842048, -587520)),
   (((10, 12), (50, 12), (70, -12), (-50, -12)), (842048, -587520)),
   (((10, 12), (50, 12), (70, -12), (-50, -12)), (842048, -587520)),
   (((10, 12), (50, 12), (70, -12), (-50, -12)), (842048, -587520)),
   (((10, 12), (50, 12), (70, -12), (-50, -12)), (842048, -587520)),
   (((10, 12), (50, 12), (70, -12), (-50, -12)), (842048, -587520)),
   (((10, 12), (50, 12), (70, -12), (-50, -12)), (842048, -587520)),
   (((10, 12), (50, 12), (70, -12), (-50, -12)), (842048, -587520)),
   (((10, 12), (50, 12), (70, -12), (-50, -12)), (842048, -587520)),
   (((10, 12), (50, 12), (70, -12), (-50, -12)), (842048, -587520)),
   (((10, 12), (50, 12), (70, -12), (-50, -12)), (842048, -587520)),
   (((10, 12), (50, 12), (70, -12), (-50, -12)), (842048, -587520))]

def mTrace8 : List MState :=
  [(((10, 12), (50, 12), (70, -12), (-50, -12)), (842048, -587520)),
   (((10, 12), (50, 12), (70, -12), (-50, -12)), (842048, -587520)),
   (((10, 12), (50, 12), (70, -12), (-50, -12)), (842048, -587520)),
   (((10, 12), (50, 12), (70, -12), (-50, -12)), (842048, -587520)),
   (((10, 12), (50, 12), (70, -12), (-50, -12)), (842048, -587520)),
   (((10, 12), (50, 12), (70, -12), (-50, -12)), (842048, -587520)),
   (((10, 12), (50, 12), (70, -12), (-50, -12)), (842048, -587520)),
   (((10, 12), (50, 12), (70, -12), (-50, -12)), (842048, -587520)),
   (((10, 12), (50, 12), (70, -12), (-50, -12)), (842048, -587520)),
   (((10, 12), (50, 12), (70, -12), (-50, -12)), (842048, -587520)),
   (((10, 12), (50, 12), (70, -12), (-50, -12)), (842048, -587520)),
   (((10, 12), (50, 12), (70, -12), (-50, -12)), (842048, -587520)),
   (((10, 12), (50, 12), (70, -12), (-50, -12)), (842048, -587520)),
   (((10, 12), (50, 12), (70, -12), (-50, -12)), (842048, -587520)),
   (((10, 12), (50, 12), (70, -12), (-50, -12)), (842048, -587520)),
   (((10, 12), (50, 12), (70, -12), (-50, -12)), (842048, -587520)),
   (((10, 12), (50, 12), (70, -12), (-50, -12)), (842048, -587520)),
   (((10, 12), (50, 12), (70, -12), (-50, -12)), (842048, -587520)),
   (((10, 12), (50, 12), (70, -12), (-50, -12)), (842048, -587520)),
   (((10, 12), (50, 12), (70, -12), (-50, -12)), (842048, -587520)),
   (((10, 12), (50, 12), (70, -12), (-50, -12)), (842048, -587520)),
   (((10, 12), (50, 12), (70, -12), (-50, -12)), (842048, -587520)),
   (((10, 12), (50, 12), (70, -12), (-50, -12)), (842048, -587520)),
   (((10, 12), (50, 12), (70, -12), (-50, -12)), (842048, -587520)),
   (((10, 12), (50, 12), (70, -12), (-50, -12)), (842048, -587520)),
   (((10, 12), (50, 12), (70, -12), (-50, -12)), (842048, -587520)),
   (((10, 12), (50, 12), (70, -12), (-50, -12)), (842048, -587520)),
   (((10, 12), (50, 12), (70, -12), (-50, -12)), (842048, -587520)),
   (((10, 12), (50, 12), (70, -12), (-50, -12)), (842048, -587520)),
   (((10, 12), (50, 12), (70, -12), (-50, -12)), (842048, -587520)),
   (((10, 12), (50, 12), (70, -12), (-50, -12)), (842048, -587520)),
   (((10, 12), (50, 12), (70, -12), (-50, -12)), (842048, -587520)),
   (((10, 12), (50, 12), (70, -12), (-50, -12)), (842048, -587520)),
   (((10, 12), (50, 12), (70, -12), (-50, -12)), (842048, -587520)),
   (((10, 12), (50, 12), (70, -12), (-50, -12)), (842048, -587520)),
   (((10, 12), (50, 12), (70, -12), (-50, -12)), (842048, -587520)),
   (((10, 12), (50, 12), (70, -12), (-50, -12)), (842048, -587520)),
   (((10, 12), (50, 12), (70, -12), (-50, -12)), (842048, -587520)),
   (((10, 12), (50, 12), (70, -12), (-50, -12)), (842048, -587520)),
   (((10, 12), (50, 12), (70, -12), (-50, -12)), (842048, -587520))]

def mTrace : List MState :=
  mTrace1 ++ mTrace2 ++ mTrace3 ++ mTrace4 ++ mTrace5 ++ mTrace6 ++ mTrace7 ++ mTrace8

/-- Real control point corresponding to a pair of mirror coordinates at
scale 20. -/
def ctlPt (x y : Z2) : Pt := ⟨interpZ x / 20, interpZ y / 20⟩

/-- The Bézier curve on the C6 endpoints with mirrored control points. -/
def mCurve (c : MCtl) : BezierCurve :=
  ⟨⟨0, 0⟩, ctlPt c.1 c.2.1, ctlPt c.2.2.1 c.2.2.2, ⟨4, 0⟩⟩

/-- Real perturbation corresponding to a mirror perturbation at scale 20. -/
def pertR (d : ℤ × ℤ) : ℝ × ℝ := ((d.1 : ℝ) / 20, (d.2 : ℝ) / 20)

theorem radicand_eq (c : MCtl) :
    (((List.range pts5L.length).map fun i =>
      distance (pts5L.getD i default)
          (evaluateBezier (mCurve c) ((i : ℝ) / ((pts5L.length : ℝ) - 1))) *
        distance (pts5L.getD i default)
          (evaluateBezier (mCurve c) ((i : ℝ) / ((pts5L.length : ℝ) - 1)))).sum) /
      (pts5L.length : ℝ) = interpZ (mErr c) / 1638400 / 5 := by
  obtain ⟨c1x, c1y, c2x, c2y⟩ := c
  have hdd : ∀ p q : Pt, distance p q * distance p q =
      (q.x - p.x) * (q.x - p.x) + (q.y - p.y) * (q.y - p.y) := fun p q =>
    Real.mul_self_sqrt (add_nonneg (mul_self_nonneg _) (mul_self_nonneg _))
  have hlen : pts5L.length = 5 := rfl
  rw [hlen]
  have hrange : List.range 5 = [0, 1, 2, 3, 4] := rfl
  rw [hrange]
  simp only [List.map_cons, List.map_nil, List.sum_cons, List.sum_nil]
  simp only [show pts5L.getD 0 default = (⟨0, 0⟩ : Pt) from rfl,
    show pts5L.getD 1 default = (⟨1, 1⟩ : Pt) from rfl,
    show pts5L.getD 2 default = (⟨2, 0⟩ : Pt) from rfl,
    show pts5L.getD 3 default = (⟨3, -1⟩ : Pt) from rfl,
    show pts5L.getD 4 default = (⟨4, 0⟩ : Pt) from rfl]
  simp only [hdd]
  simp only [mCurve, ctlPt, evaluateBezier]
  simp only [mErr, mSamples, List.foldl_cons, List.foldl_nil, mSampleTerm, mBx, mBy]
  simp only [interpZ_add, interpZ_mul, interpZ_sub, interpZ_smul, interpZ_mk]
  push_cast
  ring

theorem calcErr_eq (c : MCtl) : calculateCurveError pts5L (mCurve c) =
    Real.sqrt (interpZ (mErr c) / 1638400 / 5) := by
  unfold calculateCurveError
  rw [radicand_eq]

theorem rad_nonneg (c : MCtl) : 0 ≤ interpZ (mErr c) / 1638400 / 5 := by
  rw [← radicand_eq c]
  apply div_nonneg
  · apply List.sum_nonneg
    intro x hx
    rw [List.mem_map] at hx
    obtain ⟨i, -, rfl⟩ := hx
    exact mul_self_nonneg _
  · positivity

/-- Correspondence between a mirror optimizer state and a real optimizer
state. -/
abbrev MRel (ms : MState) (rs : Pt × Pt × ℝ) : Prop :=
  rs.1 = ctlPt ms.1.1 ms.1.2.1 ∧ rs.2.1 = ctlPt ms.1.2.2.1 ms.1.2.2.2 ∧
    rs.2.2 = Real.sqrt (interpZ ms.2 / 1638400 / 5) ∧ ms.2 = mErr ms.1

theorem ocpTry_sim (ms : MState) (rs : Pt × Pt × ℝ) (h : MRel ms rs) (d1 d2 : ℤ × ℤ) :
    MRel (mTry ms d1 d2) (ocpTry pts5L ⟨0, 0⟩ ⟨4, 0⟩ rs (pertR d1) (pertR d2)) := by
  obtain ⟨h1, h2, h3, h4⟩ := h
  have hc1 : ocpCand1 rs (pertR d1) =
      ctlPt (z2add ms.1.1 (d1.1, 0)) (z2add ms.1.2.1 (d1.2, 0)) := by
    unfold ocpCand1 pertR
    rw [h1]
    unfold ctlPt
    dsimp only
    simp only [interpZ_add, interpZ_mk]
    congr 1 <;> push_cast <;> ring
  have hc2 : ocpCand2 rs (pertR d2) =
      ctlPt (z2add ms.1.2.2.1 (d2.1, 0)) (z2add ms.1.2.2.2 (d2.2, 0)) := by
    unfold ocpCand2 pertR
    rw [h2]
    unfold ctlPt
    dsimp only
    simp only [interpZ_add, interpZ_mk]
    congr 1 <;> push_cast <;> ring
  have hcurve : (⟨⟨0, 0⟩, ocpCand1 rs (pertR d1), ocpCand2 rs (pertR d2), ⟨4, 0⟩⟩ :
      BezierCurve) = mCurve (mCand ms.1 d1 d2) := by
    rw [hc1, hc2]
    rfl
  have herr : calculateCurveError pts5L
      ⟨⟨0, 0⟩, ocpCand1 rs (pertR d1), ocpCand2 rs (pertR d2), ⟨4, 0⟩⟩ =
      Real.sqrt (interpZ (mErr (mCand ms.1 d1 d2)) / 1638400 / 5) := by
    rw [hcurve, calcErr_eq]
  have hdivlt : ∀ x y : ℝ, x / 1638400 / 5 < y / 1638400 / 5 ↔ x < y := by
    intro x y
    constructor <;> intro hxy <;> linarith
  have hcmp : (calculateCurveError pts5L
      ⟨⟨0, 0⟩, ocpCand1 rs (pertR d1), ocpCand2 rs (pertR d2), ⟨4, 0⟩⟩ < rs.2.2) ↔
      zltB (mErr (mCand ms.1 d1 d2)) ms.2 = true := by
    rw [herr, h3, zltB_iff, Real.sqrt_lt_sqrt_iff (rad_nonneg _), hdivlt]
  unfold mTry ocpTry
  by_cases hacc : zltB (mErr (mCand ms.1 d1 d2)) ms.2 = true
  · rw [if_pos hacc, if_pos (hcmp.mpr hacc)]
    refine ⟨?_, ?_, ?_, rfl⟩
    · dsimp only [mCand]
      rw [hc1]
    · dsimp only [mCand]
      rw [hc2]
    · exact herr
  · rw [if_neg hacc, if_neg (fun hcc => hacc (hcmp.mp hcc))]
    exact ⟨h1, h2, h3, h4⟩

theorem innerFold_sim (d1 : ℤ × ℤ) :
    ∀ (ds : List (ℤ × ℤ)) (ms : MState) (rs : Pt × Pt × ℝ), MRel ms rs →
      MRel (ds.foldl (fun s d2 => mTry s d1 d2) ms)
        ((ds.map pertR).foldl (fun s d2 => ocpTry pts5L ⟨0, 0⟩ ⟨4, 0⟩ s (pertR d1) d2) rs)
  | [], ms, rs, h => h
  | d :: t, ms, rs, h => by
    rw [List.map_cons, List.foldl_cons, List.foldl_cons]
    exact innerFold_sim d1 t _ _ (ocpTry_sim ms rs h d1 d)

theorem outerFold_sim :
    ∀ (ds : List (ℤ × ℤ)) (ms : MState) (rs : Pt × Pt × ℝ), MRel ms rs →
      MRel (ds.foldl (fun s d1 => pertZ.foldl (fun s d2 => mTry s d1 d2) s) ms)
        ((ds.map pertR).foldl (fun s d1 => (pertZ.map pertR).foldl
          (fun s d2 => ocpTry pts5L ⟨0, 0⟩ ⟨4, 0⟩ s d1 d2) s) rs)
  | [], ms, rs, h => h
  | d :: t, ms, rs, h => by
    rw [List.map_cons, List.foldl_cons, List.foldl_cons]
    exact outerFold_sim t _ _ (innerFold_sim d pertZ ms rs h)

theorem loop_sim :
    ∀ (l : List ℕ) (ms : MState) (rs : Pt × Pt × ℝ), MRel ms rs →
      MRel (l.foldl (fun s _ => mOuter s) ms)
        (l.foldl (fun s _ => ocpOuter pts5L ⟨0, 0⟩ ⟨4, 0⟩ s) rs)
  | [], _, _, h => h
  | _ :: t, ms, rs, h => by
    rw [List.foldl_cons, List.foldl_cons]
    apply loop_sim t
    have hp : perturbations = pertZ.map pertR := by
      unfold perturbations pertZ pertR
      norm_num
    unfold mOuter ocpOuter
    rw [hp]
    exact outerFold_sim pertZ ms rs h

theorem MRel_loop (ms : MState) (rs : Pt × Pt × ℝ) (h : MRel ms rs) :
    MRel (mLoop ms) (ocpLoop pts5L ⟨0, 0⟩ ⟨4, 0⟩ rs) := by
  unfold mLoop ocpLoop
  exact loop_sim (List.range 5) ms rs h

/-- Mirror initial state: the initial control points at scale 20 with
their error radicand. -/
def mInit : MState := (((0, 12), (0, 12), (80, -12), (0, -12)), (4110848, -1520640))

/-- Mirror final state after the five optimizer iterations. -/
def mFinal : MState := (((10, 12), (50, 12), (70, -12), (-50, -12)), (842048, -587520))

theorem mErr_init : mErr mInit.1 = mInit.2 := by decide

theorem traceOk : checkTrace mInit mTrace mSteps = true := by decide

theorem mTrace_last : mTrace.getLastD mInit = mFinal := by decide

theorem mLoop_eval : mLoop mInit = mFinal := by
  rw [mLoop_flat, checkTrace_spec mTrace mSteps mInit traceOk, mTrace_last]

theorem one_div_sqrt2 : 1 / Real.sqrt 2 = Real.sqrt 2 / 2 := by
  have hs : Real.sqrt 2 * Real.sqrt 2 = 2 := Real.mul_self_sqrt (by norm_num)
  have hne : Real.sqrt 2 ≠ 0 := ne_of_gt (Real.sqrt_pos.mpr (by norm_num))
  field_simp

theorem tangent0 : calculateTangent pts5L 0 = ⟨1 / Real.sqrt 2, 1 / Real.sqrt 2⟩ := by
  have htr : tangentRaw pts5L 0 = ⟨1, 1⟩ := by
    unfold tangentRaw
    rw [if_pos rfl]
    show (⟨(1 : ℝ) - 0, (1 : ℝ) - 0⟩ : Pt) = ⟨1, 1⟩
    norm_num
  unfold calculateTangent
  rw [htr]
  dsimp only
  rw [show (1 : ℝ) * 1 + 1 * 1 = 2 by norm_num]
  rw [if_pos (Real.sqrt_pos.mpr (by norm_num : (0:ℝ) < 2))]

theorem tangent4 : calculateTangent pts5L 4 = ⟨1 / Real.sqrt 2, 1 / Real.sqrt 2⟩ := by
  have htr : tangentRaw pts5L 4 = ⟨1, 1⟩ := by
    unfold tangentRaw
    rw [if_neg (by norm_num), if_pos (by decide : (4:ℕ) = pts5L.length - 1)]
    show (⟨(4 : ℝ) - 3, (0 : ℝ) - -1⟩ : Pt) = ⟨1, 1⟩
    norm_num
  unfold calculateTangent
  rw [htr]
  dsimp only
  rw [show (1 : ℝ) * 1 + 1 * 1 = 2 by norm_num]
  rw [if_pos (Real.sqrt_pos.mpr (by norm_num : (0:ℝ) < 2))]

theorem dist04 : distance ⟨0, 0⟩ ⟨4, 0⟩ = 4 := by
  unfold distance
  dsimp only
  rw [show ((4:ℝ) - 0) * ((4:ℝ) - 0) + ((0:ℝ) - 0) * ((0:ℝ) - 0) = 16 by norm_num]
  rw [show (16:ℝ) = 4 ^ 2 by norm_num, Real.sqrt_sq (by norm_num : (0:ℝ) ≤ 4)]

theorem fbpC1_eval : fbpC1 pts5L = ctlPt (0, 12) (0, 12) := by
  unfold fbpC1
  rw [show pts5L.getD 0 default = (⟨0, 0⟩ : Pt) from rfl,
    show pts5L.getD (pts5L.length - 1) default = (⟨4, 0⟩ : Pt) from rfl,
    tangent0, dist04]
  unfold ctlPt
  dsimp only
  simp only [interpZ_mk, one_div_sqrt2]
  congr 1 <;> push_cast <;> ring

theorem fbpC2_eval : fbpC2 pts5L = ctlPt (80, -12) (0, -12) := by
  unfold fbpC2
  rw [show pts5L.getD 0 default = (⟨0, 0⟩ : Pt) from rfl,
    show pts5L.getD (pts5L.length - 1) default = (⟨4, 0⟩ : Pt) from rfl,
    show pts5L.length - 1 = 4 from rfl, tangent4, dist04]
  unfold ctlPt
  dsimp only
  simp only [interpZ_mk, one_div_sqrt2]
  congr 1 <;> push_cast <;> ring

theorem init_rel : MRel mInit (fbpC1 pts5L, fbpC2 pts5L,
    calculateCurveError pts5L ⟨⟨0, 0⟩, fbpC1 pts5L, fbpC2 pts5L, ⟨4, 0⟩⟩) := by
  refine ⟨fbpC1_eval, fbpC2_eval, ?_, mErr_init.symm⟩
  show calculateCurveError pts5L ⟨⟨0, 0⟩, fbpC1 pts5L, fbpC2 pts5L, ⟨4, 0⟩⟩ =
    Real.sqrt (interpZ mInit.2 / 1638400 / 5)
  rw [fbpC1_eval, fbpC2_eval]
  rw [show (⟨⟨0, 0⟩, ctlPt (0, 12) (0, 12), ctlPt (80, -12) (0, -12), ⟨4, 0⟩⟩ :
    BezierCurve) = mCurve mInit.1 from rfl]
  rw [calcErr_eq, mErr_init]

theorem final_rel : MRel mFinal (ocpLoop pts5L ⟨0, 0⟩ ⟨4, 0⟩ (fbpC1 pts5L, fbpC2 pts5L,
    calculateCurveError pts5L ⟨⟨0, 0⟩, fbpC1 pts5L, fbpC2 pts5L, ⟨4, 0⟩⟩)) := by
  have h := MRel_loop mInit _ init_rel
  rw [mLoop_eval] at h
  exact h

theorem optimize_eval : optimizeControlPoints pts5L ⟨0, 0⟩ (fbpC1 pts5L) (fbpC2 pts5L)
    ⟨4, 0⟩ = (ctlPt (10, 12) (50, 12), ctlPt (70, -12) (-50, -12)) := by
  obtain ⟨g1, g2, -, -⟩ := final_rel
  unfold optimizeControlPoints
  rw [g1, g2]
  rfl

theorem fbp_eval : fitBezierToPoints pts5L = mCurve mFinal.1 := by
  unfold fitBezierToPoints
  rw [if_neg (by decide : ¬pts5L.length < 3)]
  rw [show pts5L.getD 0 default = (⟨0, 0⟩ : Pt) from rfl,
    show pts5L.getD (pts5L.length - 1) default = (⟨4, 0⟩ : Pt) from rfl]
  rw [optimize_eval]
  rfl

theorem err_le : calculateCurveError pts5L (fitBezierToPoints pts5L) ≤ 1 / 10 := by
  rw [fbp_eval, calcErr_eq]
  have hSF : mErr mFinal.1 = mFinal.2 := by decide
  rw [hSF]
  have hs : Real.sqrt 2 * Real.sqrt 2 = 2 := Real.mul_self_sqrt (by norm_num)
  have hkey : (0:ℝ) < 587520 * Real.sqrt 2 - 760128 := by
    have h1 : (0:ℝ) < 587520 * Real.sqrt 2 + 760128 := by positivity
    have h2 : (587520 * Real.sqrt 2 - 760128) * (587520 * Real.sqrt 2 + 760128) =
        112564924416 := by
      linear_combination (587520:ℝ) ^ 2 * hs
    nlinarith [h1, h2]
  have hb : interpZ mFinal.2 ≤ 81920 := by
    show interpZ (842048, -587520) ≤ 81920
    rw [interpZ_mk]
    push_cast
    linarith [hkey]
  have h100 : Real.sqrt (1 / 100) = 1 / 10 := by
    rw [show (1:ℝ) / 100 = (1 / 10) ^ 2 by norm_num,
      Real.sqrt_sq (by norm_num : (0:ℝ) ≤ 1 / 10)]
  rw [← h100]
  apply Real.sqrt_le_sqrt
  linarith [hb]

theorem findBest_eval : findBestCurveFit pts5L 0 (1 / 10) =
    some (fitBezierToPoints pts5L, 4) := by
  unfold findBestCurveFit
  rw [show min (pts5L.length - 0) 20 = 2 + 3 from rfl]
  rw [findBestAux]
  rw [if_neg (by decide : ¬pts5L.length ≤ 0 + (2 + 3) - 1)]
  rw [show (pts5L.drop 0).take (2 + 3) = pts5L from rfl]
  rw [if_pos err_le]

theorem fitCurves_eval : fitCurves pts5L (1 / 10) =
    [CurveSegment.bezier (fitBezierToPoints pts5L)] := by
  unfold fitCurves
  rw [if_neg (by decide : ¬pts5L.length < 3)]
  rw [show pts5L.length + 1 = 5 + 1 from rfl]
  rw [fitCurvesGo]
  rw [if_pos (by decide : 0 < pts5L.length - 1)]
  rw [findBest_eval]
  simp only
  rw [show (5:ℕ) = 4 + 1 from rfl]
  rw [fitCurvesGo]
  rw [if_neg (by decide : ¬(4:ℕ) < pts5L.length - 1)]

/-- C6: fitting curves to the polyline [(0,0),(1,1),(2,0),(3,-1),(4,0)]
with tolerance 0.1 yields a non-empty list of curve segments whose first
segment starts at (0,0) and whose last segment ends at (4,0): the
five-point window is accepted directly, because the greedy control-point
optimization (simulated exactly in Z[sqrt 2] by the verified mirror trace)
reaches an RMS error of sqrt((842048 - 587520*sqrt 2)/8192000), about
0.037, within the 0.1 tolerance, so fitCurves returns a single Bézier
with the original endpoints. -/
theorem fitCurves_c6 :
    fitCurves pts5L (1 / 10) ≠ [] ∧
      ∃ cs ce : CurveSegment, (fitCurves pts5L (1 / 10)).head? = some cs ∧
        (fitCurves pts5L (1 / 10)).getLast? = some ce ∧
        segStart cs = ⟨0, 0⟩ ∧ segEnd ce = ⟨4, 0⟩ := by
  constructor
  · rw [fitCurves_eval]
    simp
  · refine ⟨CurveSegment.bezier (fitBezierToPoints pts5L),
      CurveSegment.bezier (fitBezierToPoints pts5L), ?_, ?_, ?_, ?_⟩
    · rw [fitCurves_eval]
      rfl
    · rw [fitCurves_eval]
      rfl
    · show (fitBezierToPoints pts5L).start = ⟨0, 0⟩
      rw [fbp_eval]
      rfl
    · show (fitBezierToPoints pts5L).end' = ⟨4, 0⟩
      rw [fbp_eval]
      rfl

end CurveFitter
